import Mathlib

/-!
# Verification of the EDA terraform provider core against its specification

This file gives a shallow embedding, in Lean 4, of the algorithmic core of the
nokia-eda terraform-provider-vmware-v1 repository:

* the name-casing converter (`SnakeToCamel`, `CamelToSnake` in
  internal/tfutils/tfutils.go),
* the bidirectional typed-value marshaller (`newValue`, `fromValue`),
* the null-completion pass (`fillObjectNull`, `FillMissingValues`),
* the numeric normalisation helper (`NumToInt64`),
* the credential store (`login`, `getAccessToken`, `getOauthBody`,
  `getClientSecret` in internal/eda/apiclient).

Each Go function is translated into an executable Lean definition, keeping the
source's control flow.  Go's `any` values that can appear in this code are
modelled by the inductive `NativeValue`; terraform-plugin-framework attribute
values (`attr.Value`) by `AttrValue`; attribute types (`attr.Type`) by
`AttrType`.  Network effects are modelled by explicit oracle parameters.
Error messages are kept close to the source's `fmt.Errorf` strings, but format
verbs and dynamic `%T`/`%v` payloads are abbreviated where nothing depends on
them.  The theorems at the end of the file settle the frozen claims C1..C10.
-/

namespace EdaProvider

/-! ## Case converter (tfutils.go, SnakeToCamel / CamelToSnake)

The Go implementation works on UTF-8 strings with ASCII-only case logic
(`strings.ToLower`, `unicode.ToUpper` on ASCII names, a regexp with ASCII
character classes).  We model strings by their character lists; `Char.toLower`
and `Char.toUpper` agree with Go's functions on the ASCII inputs involved. -/

/-- Literal override table `snakeToCamelNames` (tfutils.go). -/
def snakeToCamelNames : List (String × String) :=
  [("external_id", "externalId"),
   ("label_selector", "label-selector"),
   ("vcsa_tls_verify", "vcsaTlsVerify")]

/-- Literal override table `camelToSnakeNames` (tfutils.go); empty in source. -/
def camelToSnakeNames : List (String × String) := []

/-- Acronym table `acronyms` (tfutils.go). -/
def acronyms : List (String × String) :=
  [("arp", "ARP"), ("arpnd", "ARPND"), ("as", "AS"), ("asn", "ASN"),
   ("asvpn", "ASVPN"), ("bgp", "BGP"), ("dhcp", "DHCP"), ("dn", "DN"),
   ("ecmp", "ECMP"), ("evpn", "EVPN"), ("fib", "FIB"), ("fqdn", "FQDN"),
   ("icmp", "ICMP"), ("id", "ID"), ("ip", "IP"), ("ipv4", "IPv4"),
   ("ipv6", "IPv6"), ("irb", "IRB"), ("l2cp", "L2CP"), ("ldap", "LDAP"),
   ("mac", "MAC"), ("mtu", "MTU"), ("nd", "ND"), ("pdu", "PDU"),
   ("pfc", "PFC"), ("rr", "RR"), ("safi", "SAFI"), ("tls", "TLS"),
   ("uri", "URI"), ("url", "URL"), ("vlan", "VLAN"), ("vpn", "VPN")]

/-- The case-preserving field set `ignoreCaseNames` (tfutils.go). -/
def ignoreCaseNames : List String := ["annotations", "labels"]

/-- First-match association lookup, the model of a Go map read `m[k]`. -/
def lookupS {α : Type} (k : String) : List (String × α) → Option α
  | [] => none
  | (k', v) :: rest => if k = k' then some v else lookupS k rest

/-- Model of `strings.Split(str, "_")`: split a character list at every
underscore, keeping empty segments. -/
def splitUnderscore : List Char → List (List Char)
  | [] => [[]]
  | c :: rest =>
    let r := splitUnderscore rest
    if c = '_' then [] :: r
    else match r with
      | [] => [[c]]
      | seg :: segs => (c :: seg) :: segs

/-- Model of `strings.ToLower` on a character list (ASCII case folding). -/
def lowerChars (cs : List Char) : List Char := cs.map Char.toLower

/-- Model of Go's capitalize-first-rune step: `runes[0] = unicode.ToUpper(runes[0])`. -/
def capitalizeChars : List Char → List Char
  | [] => []
  | c :: rest => c.toUpper :: rest

/-- The per-segment loop body of `SnakeToCamel` (tfutils.go): empty segments
are skipped, acronyms replaced, and every segment except the one at index 0
gets its first rune capitalized after lower-casing. -/
def camelParts : List (List Char) → Nat → List (List Char)
  | [], _ => []
  | p :: rest, i =>
    if p = [] then camelParts rest (i + 1)
    else
      let lower := lowerChars p
      match lookupS (String.mk lower) acronyms with
      | some v => v.toList :: camelParts rest (i + 1)
      | none =>
        (if i > 0 then capitalizeChars lower else lower) :: camelParts rest (i + 1)

/-- `SnakeToCamel` (tfutils.go): snake_case to camelCase with override and
acronym tables; after joining the segments, the whole first segment is
lower-cased (`result[0] = strings.ToLower(result[0])`). -/
def SnakeToCamel (str : String) : String :=
  if str = "" then ""
  else match lookupS str snakeToCamelNames with
  | some v => v
  | none =>
    match camelParts (splitUnderscore str.toList) 0 with
    | [] => ""
    | r0 :: rest => String.mk (List.flatten (lowerChars r0 :: rest))

/-- The character classes of the regexp `([a-z0-9])([A-Z])` (tfutils.go). -/
def isLowerOrDigit (c : Char) : Bool :=
  ('a' ≤ c && c ≤ 'z') || ('0' ≤ c && c ≤ '9')

def isUpperAZ (c : Char) : Bool := 'A' ≤ c && c ≤ 'Z'

/-- Model of `regexp.MustCompile` + `ReplaceAllString` for the pattern
`([a-z0-9])([A-Z])` with replacement inserting an underscore between the two
groups.  Because the two character classes are disjoint, the regexp's
left-to-right non-overlapping matches coincide with inserting an underscore
between every adjacent pair (lower-or-digit, upper): a character consumed as
the second group (an upper-case letter) can never start a new match as the
first group. -/
def insertSep : List Char → List Char
  | c1 :: c2 :: rest =>
    if isLowerOrDigit c1 && isUpperAZ c2 then c1 :: '_' :: insertSep (c2 :: rest)
    else c1 :: insertSep (c2 :: rest)
  | l => l

/-- `CamelToSnake` (tfutils.go): camelCase to snake_case via the regexp
separator insertion followed by `strings.ToLower` on the whole string. -/
def CamelToSnake (str : String) : String :=
  if str = "" then ""
  else match lookupS str camelToSnakeNames with
  | some v => v
  | none => String.mk (lowerChars (insertSep str.toList))

/-! ## Data model

`NativeValue` models the Go `any` values that flow through the marshaller:
JSON-decoded request/response data and the dynamic values produced by
`fromValue`.  Go's distinct numeric dynamic types matter for the type switches
in the source, so they are tagged by `GoNum`; each payload carries the
mathematical value of the Go number (Go's width limits are invariants of the
producers, not re-checked here).  Go `nil` is `nnull`. -/

inductive GoNum where
  | gint (n : Int)
  | gint8 (n : Int)
  | gint16 (n : Int)
  | gint32 (n : Int)
  | gint64 (n : Int)
  | guint (n : Nat)
  | guint8 (n : Nat)
  | guint16 (n : Nat)
  | guint32 (n : Nat)
  | guint64 (n : Nat)
  | gfloat32 (q : Rat)
  | gfloat64 (q : Rat)

inductive NativeValue where
  | nnull
  | nbool (b : Bool)
  | nnum (g : GoNum)
  | nstr (s : String)
  | nlist (xs : List NativeValue)
  | nmapv (kvs : List (String × NativeValue))

/-- Attribute types (`attr.Type`): the closed set of framework base types
handled by the source's type switches.  Custom `ObjectTypable` model types
(which the source round-trips through the generic object representation) are
outside the model; `tupleT` is included because `fromValue` handles
`TupleValue` while `newValue` and `newNullValue` have no tuple case. -/
inductive AttrType where
  | boolT
  | dynamicT
  | float32T
  | float64T
  | int32T
  | int64T
  | numberT
  | stringT
  | listT (elem : AttrType)
  | mapT (elem : AttrType)
  | setT (elem : AttrType)
  | tupleT (elems : List AttrType)
  | objectT (attrs : List (String × AttrType))

/-- The tri-state of a framework value: null, unknown, or known payload. -/
inductive VState (α : Type) where
  | null
  | unknown
  | known (a : α)

/-- Attribute values (`attr.Value`).  `float32V`/`float64V`/`numberV` payloads
are the exact rational values of the Go floats (`*big.Float` for `numberV`).
Container values carry their element/attribute types the way framework values
do (`ListValue.elementType` etc.). -/
inductive AttrValue where
  | boolV (s : VState Bool)
  | dynamicV (s : VState AttrValue)
  | float32V (s : VState Rat)
  | float64V (s : VState Rat)
  | int32V (s : VState Int)
  | int64V (s : VState Int)
  | numberV (s : VState Rat)
  | stringV (s : VState String)
  | listV (elem : AttrType) (s : VState (List AttrValue))
  | mapV (elem : AttrType) (s : VState (List (String × AttrValue)))
  | setV (elem : AttrType) (s : VState (List AttrValue))
  | tupleV (elems : List AttrType) (s : VState (List AttrValue))
  | objectV (attrs : List (String × AttrType)) (s : VState (List (String × AttrValue)))

def VState.isNull : VState α → Bool
  | .null => true
  | _ => false

def VState.isUnknown : VState α → Bool
  | .unknown => true
  | _ => false

def VState.getD : VState α → α → α
  | .known a, _ => a
  | _, d => d

/-- `IsNull()` of a framework value.  For `DynamicValue` the framework checks
only the dynamic's own state, not the underlying value's. -/
def AttrValue.isNull : AttrValue → Bool
  | .boolV s => s.isNull
  | .dynamicV s => s.isNull
  | .float32V s => s.isNull
  | .float64V s => s.isNull
  | .int32V s => s.isNull
  | .int64V s => s.isNull
  | .numberV s => s.isNull
  | .stringV s => s.isNull
  | .listV _ s => s.isNull
  | .mapV _ s => s.isNull
  | .setV _ s => s.isNull
  | .tupleV _ s => s.isNull
  | .objectV _ s => s.isNull

/-- `IsUnknown()` of a framework value (again, own state only for dynamics). -/
def AttrValue.isUnknown : AttrValue → Bool
  | .boolV s => s.isUnknown
  | .dynamicV s => s.isUnknown
  | .float32V s => s.isUnknown
  | .float64V s => s.isUnknown
  | .int32V s => s.isUnknown
  | .int64V s => s.isUnknown
  | .numberV s => s.isUnknown
  | .stringV s => s.isUnknown
  | .listV _ s => s.isUnknown
  | .mapV _ s => s.isUnknown
  | .setV _ s => s.isUnknown
  | .tupleV _ s => s.isUnknown
  | .objectV _ s => s.isUnknown

/-- `Value.Type(ctx)` of a framework value. -/
def AttrValue.typeOf : AttrValue → AttrType
  | .boolV _ => .boolT
  | .dynamicV _ => .dynamicT
  | .float32V _ => .float32T
  | .float64V _ => .float64T
  | .int32V _ => .int32T
  | .int64V _ => .int64T
  | .numberV _ => .numberT
  | .stringV _ => .stringT
  | .listV e _ => .listT e
  | .mapV e _ => .mapT e
  | .setV e _ => .setT e
  | .tupleV ts _ => .tupleT ts
  | .objectV ats _ => .objectT ats

/-! ## NumToInt64 (tfutils.go) -/

/-- Go's `int64(x)` conversion from a 64-bit unsigned value: reduction
modulo 2^64 into the signed range. -/
def wrap64 (n : Nat) : Int :=
  let m : Nat := n % 2 ^ 64
  if m < 2 ^ 63 then (m : Int) else (m : Int) - 2 ^ 64

/-- Go's `int64(x)` conversion from a float: truncation toward zero.  (For
magnitudes outside the int64 range the Go conversion is
implementation-dependent; the model truncates uniformly.) -/
def ratTrunc (q : Rat) : Int := Int.tdiv q.num (Int.ofNat q.den)

def int64Max : Int := 2 ^ 63 - 1

def int64Min : Int := -(2 ^ 63)

/-- Base-10 digit-string value accumulator for `parseInt64`. -/
def digitsVal : List Char → Nat → Option Nat
  | [], acc => some acc
  | c :: rest, acc =>
    if '0' ≤ c && c ≤ '9' then digitsVal rest (acc * 10 + (c.toNat - '0'.toNat))
    else none

/-- Model of `strconv.ParseInt(s, 10, 64)`: an optional sign followed by a
nonempty run of decimal digits, rejected when the signed value leaves the
64-bit range.  (Error payloads abbreviate Go's `strconv.NumError`.) -/
def parseInt64 (s : String) : Except String Int :=
  let signDigits : Bool × List Char :=
    match s.toList with
    | '+' :: rest => (false, rest)
    | '-' :: rest => (true, rest)
    | l => (false, l)
  match digitsVal signDigits.2 0 with
  | none => .error ("invalid syntax: " ++ s)
  | some n =>
    if signDigits.2 = [] then .error ("invalid syntax: " ++ s)
    else
      let v : Int := if signDigits.1 then -(n : Int) else (n : Int)
      if v < int64Min ∨ int64Max < v then .error ("value out of range: " ++ s)
      else .ok v

/-- `NumToInt64` (tfutils.go): the `any`-to-`int64` type switch.  Signed
integers widen losslessly; `uint`/`uint64` go through Go's wrapping
conversion; floats truncate toward zero; strings parse via
`strconv.ParseInt(v, 10, 64)`; everything else is an unsupported type. -/
def NumToInt64 : NativeValue → Except String Int
  | .nnum (.gint n) => .ok n
  | .nnum (.gint8 n) => .ok n
  | .nnum (.gint16 n) => .ok n
  | .nnum (.gint32 n) => .ok n
  | .nnum (.gint64 n) => .ok n
  | .nnum (.guint n) => .ok (wrap64 n)
  | .nnum (.guint8 n) => .ok (n : Int)
  | .nnum (.guint16 n) => .ok (n : Int)
  | .nnum (.guint32 n) => .ok (n : Int)
  | .nnum (.guint64 n) => .ok (wrap64 n)
  | .nstr s => parseInt64 s
  | .nnum (.gfloat32 q) => .ok (ratTrunc q)
  | .nnum (.gfloat64 q) => .ok (ratTrunc q)
  | _ => .error ("unsupported type")

/-! ## Framework value constructors with validation

`types.ListValue`, `types.MapValue`, `types.SetValue`, `types.ObjectValue`
validate their inputs (element types must equal the declared element type;
objects must bind exactly the declared attribute names with matching types)
and return diagnostics on failure, which the source wraps into errors.
`teq` models `attr.Type.Equal`. -/

mutual

def teq (a b : AttrType) : Bool :=
  match a, b with
  | .boolT, .boolT => true
  | .dynamicT, .dynamicT => true
  | .float32T, .float32T => true
  | .float64T, .float64T => true
  | .int32T, .int32T => true
  | .int64T, .int64T => true
  | .numberT, .numberT => true
  | .stringT, .stringT => true
  | .listT e1, .listT e2 => teq e1 e2
  | .mapT e1, .mapT e2 => teq e1 e2
  | .setT e1, .setT e2 => teq e1 e2
  | .tupleT ts1, .tupleT ts2 => teqList ts1 ts2
  | .objectT f1, .objectT f2 => teqFields f1 f2
  | _, _ => false
termination_by (sizeOf a, 0)

def teqList (ts1 ts2 : List AttrType) : Bool :=
  match ts1, ts2 with
  | [], [] => true
  | t1 :: r1, t2 :: r2 => teq t1 t2 && teqList r1 r2
  | _, _ => false
termination_by (sizeOf ts1, 1)

def teqFields (f1 f2 : List (String × AttrType)) : Bool :=
  match f1, f2 with
  | [], [] => true
  | (n1, t1) :: r1, (n2, t2) :: r2 => n1 = n2 && teq t1 t2 && teqFields r1 r2
  | _, _ => false
termination_by (sizeOf f1, 1)

end

def mkListValue (e : AttrType) (xs : List AttrValue) : Except String AttrValue :=
  if xs.all (fun v => teq v.typeOf e) then .ok (.listV e (.known xs))
  else .error ("failed to create list value")

def mkSetValue (e : AttrType) (xs : List AttrValue) : Except String AttrValue :=
  if xs.all (fun v => teq v.typeOf e) then .ok (.setV e (.known xs))
  else .error ("failed to create set value")

def mkMapValue (e : AttrType) (kvs : List (String × AttrValue)) : Except String AttrValue :=
  if kvs.all (fun kv => teq kv.2.typeOf e) then .ok (.mapV e (.known kvs))
  else .error ("failed to create map value")

/-- `types.ObjectValue` validation: every declared attribute is bound with a
value of its declared type, and no extra attribute is bound. -/
def objectFieldsOk (ats : List (String × AttrType)) (kvs : List (String × AttrValue)) : Bool :=
  ats.all (fun p =>
    match lookupS p.1 kvs with
    | some v => teq v.typeOf p.2
    | none => false) &&
  kvs.all (fun kv => (lookupS kv.1 ats).isSome)

def mkObjectValue (ats : List (String × AttrType)) (kvs : List (String × AttrValue)) :
    Except String AttrValue :=
  if objectFieldsOk ats kvs then .ok (.objectV ats (.known kvs))
  else .error ("failed to create object value")

/-! ## newValue (tfutils.go): native → typed conversion

The per-traversal visit-scope machinery (global `visitCounter`,
`ignoreCaseVisitor` map, `newVisitID`) reduces, for one conversion call tree,
to a boolean `pre` ("a case-preserving scope is active"): a scope is opened
for an entry whose key is in `ignoreCaseNames` when none is active, covers
exactly that entry's recursive conversion, and is deleted before the next
entry (distinct traversals never share visit ids, so the global map carries no
state between entries or calls). -/

mutual

/-- `newValue` (tfutils.go): converts a native (JSON-shaped) value into an
`attr.Value` of the given type.  A `nil` value yields the typed null in every
handled case; `TupleType` has no case and falls to the default unsupported
error. -/
def newValue (t : AttrType) (val : NativeValue) (pre : Bool) : Except String AttrValue :=
  match t with
  | .boolT =>
    match val with
    | .nnull => .ok (.boolV .null)
    | .nbool b => .ok (.boolV (.known b))
    | _ => .error ("expected bool")
  | .dynamicT =>
    -- The source asserts `val.(attr.Value)`; no JSON-decoded native value is
    -- a terraform attr.Value, so every non-nil value fails the assertion.
    match val with
    | .nnull => .ok (.dynamicV .null)
    | _ => .error ("expected attr.Value")
  | .float32T =>
    match val with
    | .nnull => .ok (.float32V .null)
    | .nnum (.gfloat32 q) => .ok (.float32V (.known q))
    | _ => .error ("expected float32")
  | .float64T =>
    match val with
    | .nnull => .ok (.float64V .null)
    | .nnum (.gfloat64 q) => .ok (.float64V (.known q))
    | _ => .error ("expected float64")
  | .int32T =>
    match val with
    | .nnull => .ok (.int32V .null)
    | .nnum (.gint32 n) => .ok (.int32V (.known n))
    | _ => .error ("expected int32")
  | .int64T =>
    match val with
    | .nnull => .ok (.int64V .null)
    | v =>
      match NumToInt64 v with
      | .ok n => .ok (.int64V (.known n))
      | .error _ => .error ("expected int64")
  | .numberT =>
    -- The source asserts `val.(*big.Float)`; JSON-decoded native data never is.
    match val with
    | .nnull => .ok (.numberV .null)
    | _ => .error ("expected big.Float")
  | .stringT =>
    match val with
    | .nnull => .ok (.stringV .null)
    | .nstr s => .ok (.stringV (.known s))
    | _ => .error ("expected string")
  | .listT e =>
    match val with
    | .nnull => .ok (.listV e .null)
    | .nlist xs =>
      match newValueList e xs pre with
      | .error msg => .error msg
      | .ok l => mkListValue e l
    | _ => .error ("expected list")
  | .mapT e =>
    match val with
    | .nnull => .ok (.mapV e .null)
    | .nmapv kvs =>
      match newValueMapEntries e kvs pre with
      | .error msg => .error msg
      | .ok l => mkMapValue e l
    | _ => .error ("expected map")
  | .setT e =>
    match val with
    | .nnull => .ok (.setV e .null)
    | .nlist xs =>
      match newValueList e xs pre with
      | .error msg => .error msg
      | .ok l => mkSetValue e l
    | _ => .error ("expected set list")
  | .tupleT _ => .error ("unsupported type")
  | .objectT ats =>
    match val with
    | .nnull => .ok (.objectV ats .null)
    | .nmapv kvs =>
      match newValueFields ats kvs pre with
      | .error msg => .error msg
      | .ok l => mkObjectValue ats l
    | _ => .error ("expected object map")
termination_by (sizeOf t, sizeOf val)

/-- Element-wise recursion shared by the `ListType` and `SetType` cases of
`newValue` (their loop bodies are identical in the source). -/
def newValueList (e : AttrType) (xs : List NativeValue) (pre : Bool) :
    Except String (List AttrValue) :=
  match xs with
  | [] => .ok []
  | v :: rest =>
    match newValue e v pre with
    | .error msg => .error msg
    | .ok w =>
      match newValueList e rest pre with
      | .error msg => .error msg
      | .ok tail => .ok (w :: tail)
termination_by (sizeOf e, sizeOf xs)

/-- The `MapType` loop of `newValue`: per entry, a scope is opened when the
key is case-preserving and none is active; the produced key is verbatim while
a scope is active and `SnakeToCamel`-converted otherwise.  (Go map iteration
order is unspecified; the model fixes entry order, which no settled property
depends on.) -/
def newValueMapEntries (e : AttrType) (kvs : List (String × NativeValue)) (pre : Bool) :
    Except String (List (String × AttrValue)) :=
  match kvs with
  | [] => .ok []
  | (k, v) :: rest =>
    let p := pre || ignoreCaseNames.contains k
    match newValue e v p with
    | .error msg => .error msg
    | .ok w =>
      match newValueMapEntries e rest pre with
      | .error msg => .error msg
      | .ok tail => .ok (((if p then k else SnakeToCamel k), w) :: tail)
termination_by (sizeOf e, sizeOf kvs)

/-- The `ObjectType` loop of `newValue`: iterates the declared attribute
types; the native datum for a field is looked up under the
`SnakeToCamel`-converted name (a missing key gives Go `nil`, hence a typed
null), and the output binds the declared name itself. -/
def newValueFields (ats : List (String × AttrType)) (m : List (String × NativeValue)) (pre : Bool) :
    Except String (List (String × AttrValue)) :=
  match ats with
  | [] => .ok []
  | (name, ft) :: rest =>
    let p := pre || ignoreCaseNames.contains name
    match newValue ft ((lookupS (SnakeToCamel name) m).getD .nnull) p with
    | .error msg => .error msg
    | .ok w =>
      match newValueFields rest m pre with
      | .error msg => .error msg
      | .ok tail => .ok ((name, w) :: tail)
termination_by (sizeOf ats, sizeOf m)

end

/-! ## fromValue (tfutils.go): typed → native conversion -/

mutual

/-- `fromValue` (tfutils.go): converts an `attr.Value` into native data.
Scalar getters return the Go zero value for null/unknown states
(`ValueBool()` of an unknown bool is `false`, etc.); `UnderlyingValue()` of a
null/unknown dynamic is Go `nil`, which the recursive call rejects as a nil
value; `ValueBigFloat()` of a null/unknown number is a nil `*big.Float`,
which `IsInt()` dereferences — a panic in Go, modelled as an error value;
`Elements()`/`Attributes()` of null/unknown containers are empty. -/
def fromValue (v : AttrValue) (pre : Bool) : Except String NativeValue :=
  match v with
  | .boolV s => .ok (.nbool (s.getD false))
  | .dynamicV s =>
    match s with
    | .known u => fromValue u pre
    | _ => .error ("value is nil")
  | .float32V s => .ok (.nnum (.gfloat32 (s.getD 0)))
  | .float64V s => .ok (.nnum (.gfloat64 (s.getD 0)))
  | .int32V s => .ok (.nnum (.gint32 (s.getD 0)))
  | .int64V s => .ok (.nnum (.gint64 (s.getD 0)))
  | .numberV s =>
    match s with
    | .known q =>
      -- `IsInt()` then `Int64()` (saturating, exact for in-range integers,
      -- modelled exactly) or `Float64()` (nearest float, modelled exactly).
      if q.den = 1 then .ok (.nnum (.gint64 q.num)) else .ok (.nnum (.gfloat64 q))
    | _ => .error ("panic: nil big.Float")
  | .stringV s => .ok (.nstr (s.getD ""))
  | .listV _ s =>
    match s with
    | .known xs =>
      match fromList xs pre with
      | .error msg => .error msg
      | .ok l => .ok (.nlist l)
    | _ => .ok (.nlist [])
  | .mapV _ s =>
    match s with
    | .known kvs =>
      match fromEntries kvs pre with
      | .error msg => .error msg
      | .ok l => .ok (.nmapv l)
    | _ => .ok (.nmapv [])
  | .setV _ s =>
    match s with
    | .known xs =>
      match fromList xs pre with
      | .error msg => .error msg
      | .ok l => .ok (.nlist l)
    | _ => .ok (.nlist [])
  | .tupleV _ s =>
    match s with
    | .known xs =>
      match fromList xs pre with
      | .error msg => .error msg
      | .ok l => .ok (.nlist l)
    | _ => .ok (.nlist [])
  | .objectV _ s =>
    match s with
    | .known kvs =>
      match fromEntries kvs pre with
      | .error msg => .error msg
      | .ok l => .ok (.nmapv l)
    | _ => .ok (.nmapv [])
termination_by sizeOf v

/-- Element loop shared by the `ListValue`, `SetValue` and `TupleValue` cases
of `fromValue` (identical bodies in the source): null or unknown elements are
skipped before conversion. -/
def fromList (xs : List AttrValue) (pre : Bool) : Except String (List NativeValue) :=
  match xs with
  | [] => .ok []
  | v :: rest =>
    if v.isNull || v.isUnknown then fromList rest pre
    else
      match fromValue v pre with
      | .error msg => .error msg
      | .ok w =>
        match fromList rest pre with
        | .error msg => .error msg
        | .ok tail => .ok (w :: tail)
termination_by sizeOf xs

/-- Entry loop shared by the `MapValue` and `ObjectValue` cases of `fromValue`
(identical bodies in the source): null or unknown entries are skipped before
any scope handling; for converted entries the output key is verbatim while a
case-preserving scope is active and `SnakeToCamel`-converted otherwise. -/
def fromEntries (kvs : List (String × AttrValue)) (pre : Bool) :
    Except String (List (String × NativeValue)) :=
  match kvs with
  | [] => .ok []
  | (k, v) :: rest =>
    if v.isNull || v.isUnknown then fromEntries rest pre
    else
      let p := pre || ignoreCaseNames.contains k
      match fromValue v p with
      | .error msg => .error msg
      | .ok w =>
        match fromEntries rest pre with
        | .error msg => .error msg
        | .ok tail => .ok (((if p then k else SnakeToCamel k), w) :: tail)
termination_by sizeOf kvs

end

/-! ## Null completion (tfutils.go: newNullValue, fillObjectNull, FillMissingValues) -/

/-- The typed null for each attribute type, as produced by the nil-value
branches of `newValue` and the cases of `newNullValue`. -/
def typedNull : AttrType → AttrValue
  | .boolT => .boolV .null
  | .dynamicT => .dynamicV .null
  | .float32T => .float32V .null
  | .float64T => .float64V .null
  | .int32T => .int32V .null
  | .int64T => .int64V .null
  | .numberT => .numberV .null
  | .stringT => .stringV .null
  | .listT e => .listV e .null
  | .mapT e => .mapV e .null
  | .setT e => .setV e .null
  | .tupleT ts => .tupleV ts .null
  | .objectT ats => .objectV ats .null

/-- `newNullValue` (tfutils.go): switch on the value's type returning the
typed null; there is no `TupleType` case, so tuples hit the default
unsupported-type error. -/
def newNullValue (v : AttrValue) : Except String AttrValue :=
  match v.typeOf with
  | .tupleT _ => .error ("unsupported type")
  | t => .ok (typedNull t)

mutual

/-- `fillObjectNull` (tfutils.go): replaces every null or unknown attribute of
an object by its typed null, recursing into object-valued attributes, and
rebuilds the object through `types.ObjectValue` (whose validation fails when
the attribute map does not bind every declared name — which happens when the
input object itself is null or unknown, since `Attributes()` is then empty).
The source takes a `basetypes.ObjectValuable`; Go's type system prevents
non-object arguments. -/
def fillObjectNull (v : AttrValue) : Except String AttrValue :=
  match v with
  | .objectV ats (.known kvs) =>
    match fillAttrs kvs with
    | .error msg => .error msg
    | .ok filled => mkObjectValue ats filled
  | .objectV ats _ =>
    -- `Attributes()` of a null/unknown object is empty, so the loop body
    -- never runs and `types.ObjectValue` is built from an empty attribute map.
    mkObjectValue ats []
  | _ => .error ("not an object value")
termination_by (sizeOf v, 0)

/-- The per-attribute body of the `fillObjectNull` loop: a null or unknown
attribute becomes its typed null (`newNullValue`); a known attribute that is
an object is recursed into; any other attribute is kept unchanged. -/
def fillAttrEntry (av : AttrValue) : Except String AttrValue :=
  if av.isUnknown || av.isNull then newNullValue av
  else
    match av with
    | .objectV ats2 s2 => fillObjectNull (.objectV ats2 s2)
    | w => .ok w
termination_by (sizeOf av, 1)

def fillAttrs (kvs : List (String × AttrValue)) : Except String (List (String × AttrValue)) :=
  match kvs with
  | [] => .ok []
  | (name, av) :: rest =>
    match fillAttrEntry av with
    | .error msg => .error msg
    | .ok nv =>
      match fillAttrs rest with
      | .error msg => .error msg
      | .ok tail => .ok ((name, nv) :: tail)
termination_by (sizeOf kvs, 2)

end

/-- `FillMissingValues` (tfutils.go): iterates a model struct's fields
(modelled as an association list of the fields that implement `attr.Value`;
other struct fields are skipped by the source).  An unknown field becomes its
typed null; a known or null field whose type is `ObjectTypable` goes through
`fillObjectNull`; every other field is kept. -/
def FillMissingValues (model : List (String × AttrValue)) :
    Except String (List (String × AttrValue)) :=
  match model with
  | [] => .ok []
  | (name, av) :: rest =>
    if av.isUnknown then
      match newNullValue av with
      | .error msg => .error msg
      | .ok nv =>
        match FillMissingValues rest with
        | .error msg => .error msg
        | .ok tail => .ok ((name, nv) :: tail)
    else
      match av.typeOf with
      | .objectT _ =>
        match fillObjectNull av with
        | .error msg => .error msg
        | .ok w =>
          match FillMissingValues rest with
          | .error msg => .error msg
          | .ok tail => .ok ((name, w) :: tail)
      | _ =>
        match FillMissingValues rest with
        | .error msg => .error msg
        | .ok tail => .ok ((name, av) :: tail)

/-! ## Pruning helper (specification-side, for the claims about omitted
entries): removes container children selected by a predicate. -/

mutual

def pruneVal (f : AttrValue → Bool) (v : AttrValue) : AttrValue :=
  match v with
  | .dynamicV (.known u) => .dynamicV (.known (pruneVal f u))
  | .listV e (.known xs) => .listV e (.known (pruneList f xs))
  | .mapV e (.known kvs) => .mapV e (.known (pruneEntries f kvs))
  | .setV e (.known xs) => .setV e (.known (pruneList f xs))
  | .tupleV ts (.known xs) => .tupleV ts (.known (pruneList f xs))
  | .objectV ats (.known kvs) => .objectV ats (.known (pruneEntries f kvs))
  | w => w
termination_by sizeOf v

def pruneList (f : AttrValue → Bool) (xs : List AttrValue) : List AttrValue :=
  match xs with
  | [] => []
  | v :: rest =>
    if f v then pruneList f rest
    else pruneVal f v :: pruneList f rest
termination_by sizeOf xs

def pruneEntries (f : AttrValue → Bool) (kvs : List (String × AttrValue)) :
    List (String × AttrValue) :=
  match kvs with
  | [] => []
  | (k, v) :: rest =>
    if f v then pruneEntries f rest
    else (k, pruneVal f v) :: pruneEntries f rest
termination_by sizeOf kvs

end

/-! ## Credential store (internal/eda/apiclient)

Network effects are modelled by oracles: `login`'s repeated `DoLogin` calls
consume outcomes from a function `Nat → LoginOutcome` (the outcome of the
i-th attempt), and `getClientSecret`'s `DoQuery` is an oracle from the request
data to the decoded listing.  Time is a rational number of seconds (`time.Time`
/ `float64` durations).  The store-wide mutex serializes `getAccessToken`;
a single locked call is modelled functionally. -/

def KEY_CLIENT_ID : String := "client_id"

def KEY_CLIENT_SECRET : String := "client_secret"

def KEY_USERNAME : String := "username"

def KEY_PASSWORD : String := "password"

def KEY_GRANT_TYPE : String := "grant_type"

def KEY_PASSWORD_GRANT : String := "password"

def KEY_REFRESH_GRANT : String := "refresh_token"

def KEYCLOAK_URL : String := "/core/httpproxy/v1/keycloak"

/-- `OAUTH_URL` with the realm formatted in (`fmt.Sprintf` of the `%s` verb). -/
def OAUTH_URL (realm : String) : String :=
  KEYCLOAK_URL ++ "/realms/" ++ realm ++ "/protocol/openid-connect/token"

def CLIENT_URL : String := KEYCLOAK_URL ++ "/admin/realms/\x7brealm\x7d/clients"

/-- The `grant` struct: OAuth token material plus the issuance timestamp
(`timestamp *time.Time`, nil until the first successful login). -/
structure Grant where
  accessToken : String
  refreshToken : String
  scope : String
  tokenType : String
  expiresInSecs : Rat
  timestamp : Option Rat
deriving DecidableEq, Repr

/-- The zero value `grant{}` both grants start from in `NewEdaApiClient`. -/
def emptyGrant : Grant :=
  { accessToken := "", refreshToken := "", scope := "", tokenType := "",
    expiresInSecs := 0, timestamp := none }

/-- The `clientCredentials` struct. -/
structure ClientCredentials where
  authUrl : String
  clientId : String
  clientSecret : String
  username : String
  password : String
deriving DecidableEq, Repr

/-- `getOauthBody` (apiclient): the OAuth form body; refresh grant when a
refresh token is supplied, password grant otherwise.  (A Go map carries no
order; the model lists the inserted pairs, read back via `lookupS`.) -/
def getOauthBody (cred : ClientCredentials) (refreshToken : String) :
    List (String × String) :=
  if refreshToken ≠ "" then
    [(KEY_CLIENT_ID, cred.clientId), (KEY_CLIENT_SECRET, cred.clientSecret),
     (KEY_GRANT_TYPE, KEY_REFRESH_GRANT), (KEY_REFRESH_GRANT, refreshToken)]
  else
    [(KEY_CLIENT_ID, cred.clientId), (KEY_CLIENT_SECRET, cred.clientSecret),
     (KEY_GRANT_TYPE, KEY_PASSWORD_GRANT), (KEY_USERNAME, cred.username),
     (KEY_PASSWORD, cred.password)]

/-- The decoded JSON fields of a 2xx token response (resty unmarshals them
into the grant struct). -/
structure GrantFields where
  accessToken : String
  refreshToken : String
  scope : String
  tokenType : String
  expiresInSecs : Rat
deriving DecidableEq, Repr

/-- Outcome of one `DoLogin` call: a transport error (`err != nil`), an HTTP
error response (`resp.IsError()`, status ≥ 400), a 2xx response whose JSON
body is unmarshalled into the grant, or a non-error non-2xx response (1xx/3xx:
resty does not unmarshal the result, the login loop still counts it as
success). -/
inductive LoginOutcome where
  | reqError (msg : String)
  | httpError (status : String) (body : String)
  | okJSON (f : GrantFields)
  | okNoBody (status : String)
deriving DecidableEq, Repr

/-- Grant update by a 2xx login response at time `now`: the five JSON fields
are overwritten and `timestamp = time.Now()` is recorded by `login`.  (The
model assumes the token endpoint's 2xx body carries all five fields;
`json.Unmarshal` would keep old values for absent ones.) -/
def applyLogin (_g : Grant) (f : GrantFields) (now : Rat) : Grant :=
  { accessToken := f.accessToken, refreshToken := f.refreshToken,
    scope := f.scope, tokenType := f.tokenType,
    expiresInSecs := f.expiresInSecs, timestamp := some now }

def maxRetries : Nat := 5

/-- `baseDelay = time.Second`, in seconds. -/
def baseDelay : Rat := 1

structure LoginResult where
  result : Except String Grant
  /-- Total backoff slept (`time.Sleep(baseDelay * (1 << attempt))` after each
  failed attempt except the last). -/
  slept : Rat
  /-- Number of `DoLogin` network calls performed. -/
  calls : Nat
deriving Repr

/-- The final aggregated error of `login`: `err != nil` from the last attempt
wraps the error, otherwise the last response body is used; the `%d` verb
renders `maxRetries = 5`. -/
def loginFailMsg (last : String ⊕ String) : String :=
  "login failed after 5 attempts: " ++
    (match last with
     | .inl msg => msg
     | .inr body => body)

/-- The retry loop of `login` (apiclient): `attempt` is the index of the next
attempt, `remaining` the attempts left, `slept` the backoff accumulated so
far, `last` the error or response of the most recent failed attempt. -/
def loginAttempts (resp : Nat → LoginOutcome) (g : Grant) (now : Rat) :
    Nat → Nat → Rat → (String ⊕ String) → LoginResult
  | attempt, 0, slept, last =>
    { result := .error (loginFailMsg last), slept := slept, calls := attempt }
  | attempt, remaining + 1, slept, _last =>
    match resp attempt with
    | .okJSON f =>
      { result := .ok (applyLogin g f now), slept := slept, calls := attempt + 1 }
    | .okNoBody _ =>
      { result := .ok { g with timestamp := some now }, slept := slept,
        calls := attempt + 1 }
    | .reqError msg =>
      loginAttempts resp g now (attempt + 1) remaining
        (if attempt < maxRetries - 1 then slept + baseDelay * 2 ^ attempt else slept)
        (.inl msg)
    | .httpError _ body =>
      loginAttempts resp g now (attempt + 1) remaining
        (if attempt < maxRetries - 1 then slept + baseDelay * 2 ^ attempt else slept)
        (.inr body)

/-- `login` (apiclient): up to `maxRetries = 5` attempts with exponential
backoff; a non-error, non-failure response records `timestamp = now` and
succeeds; otherwise the aggregated failure names the attempt count and the
last error or response. -/
def login (resp : Nat → LoginOutcome) (g : Grant) (now : Rat) : LoginResult :=
  loginAttempts resp g now 0 maxRetries 0 (.inl "")

structure TokenResult where
  token : Except String String
  grant : Grant
  /-- The OAuth form bodies of the `login()` invocations performed (empty on
  the cached fast path). -/
  loginBodies : List (List (String × String))
  /-- `DoLogin` network calls performed. -/
  calls : Nat
  slept : Rat
deriving Repr

/-- The expiry computation at the top of `getAccessToken` (apiclient):
`expired = elapsed > ExpiresInSecs`, evaluated only when a timestamp exists
and `ExpiresInSecs != 0`, and `false` otherwise. -/
def grantExpired (g : Grant) (now : Rat) : Bool :=
  match g.timestamp with
  | some t0 => if g.expiresInSecs ≠ 0 then decide (now - t0 > g.expiresInSecs) else false
  | none => false

/-- `getAccessToken` (apiclient): inside the token lock, compute expiry;
return the cached token when not expired and nonempty; otherwise log in —
with the refresh grant when expired and a refresh token is present, with the
password grant otherwise — and fail on an empty post-login token. -/
def getAccessToken (cred : ClientCredentials) (g : Grant) (now : Rat)
    (resp : Nat → LoginOutcome) : TokenResult :=
  let expired : Bool := grantExpired g now
  if expired = false ∧ g.accessToken ≠ "" then
    { token := .ok g.accessToken, grant := g, loginBodies := [], calls := 0, slept := 0 }
  else
    let body :=
      if expired = true ∧ g.refreshToken ≠ "" then getOauthBody cred g.refreshToken
      else getOauthBody cred ""
    let lr := login resp g now
    match lr.result with
    | .error e =>
      { token := .error e, grant := g, loginBodies := [body], calls := lr.calls,
        slept := lr.slept }
    | .ok g' =>
      if g'.accessToken = "" then
        { token := .error ("access token is empty"), grant := g',
          loginBodies := [body], calls := lr.calls, slept := lr.slept }
      else
        { token := .ok g'.accessToken, grant := g', loginBodies := [body],
          calls := lr.calls, slept := lr.slept }

/-- The provider configuration fields consumed by `getClientSecret`. -/
structure KcConfig where
  kcRealm : String
  kcClientID : String
  kcUsername : String
  kcPassword : String
  edaRealm : String
deriving DecidableEq, Repr

/-- The request of the one `DoQuery` call in `getClientSecret`. -/
structure QueryRequest where
  accessToken : String
  pathUrl : String
  pathParams : List (String × String)
  queryParams : List (String × String)
deriving DecidableEq, Repr

/-- The Keycloak (secondary identity-provider) credential pair built inside
`getClientSecret` from the configuration; its `clientSecret` is the Go zero
value. -/
def kcCred (cfg : KcConfig) : ClientCredentials :=
  { authUrl := OAUTH_URL cfg.kcRealm, clientId := cfg.kcClientID,
    clientSecret := "", username := cfg.kcUsername, password := cfg.kcPassword }

/-- The administrative-listing request of `getClientSecret`: `CLIENT_URL`
with path parameter `realm = EdaRealm` and query parameter `clientId = id`. -/
def adminQueryReq (cfg : KcConfig) (tok id : String) : QueryRequest :=
  { accessToken := tok, pathUrl := CLIENT_URL,
    pathParams := [("realm", cfg.edaRealm)], queryParams := [("clientId", id)] }

/-- `getClientSecret` (apiclient): builds the Keycloak (secondary) credential
pair from the configuration, obtains a token for it, queries the
administrative client listing filtered by clientId, and extracts the "secret"
field of the first entry.  The `query` oracle models `DoQuery`, decoding into
`[]map[string]any`; entries are restricted to string fields because the only
field read, "secret", is extracted with a string type assertion. -/
def getClientSecret (cfg : KcConfig) (kcGrant : Grant) (now : Rat)
    (loginResp : Nat → LoginOutcome)
    (query : QueryRequest → Except String (List (List (String × String))))
    (id : String) : Except String String :=
  match (getAccessToken (kcCred cfg) kcGrant now loginResp).token with
  | .error e => .error e
  | .ok accessToken =>
    match query (adminQueryReq cfg accessToken id) with
    | .error e => .error e
    | .ok result =>
      match result with
      | [] => .error ("client not found: " ++ id)
      | first :: _ =>
        match lookupS ("secret") first with
        | none => .error ("client secret not found for client: " ++ id)
        | some secret => .ok secret

/-! ## Helper notions used by the claim theorems -/

/-- A `DoLogin` outcome the login loop treats as success
(`err == nil && !resp.IsError()`). -/
def LoginOutcome.isSuccess : LoginOutcome → Bool
  | .okJSON _ => true
  | .okNoBody _ => true
  | _ => false

/-- The payload the aggregated login error reports for a failed attempt: the
transport error message when `err != nil`, otherwise the response body. -/
def lastFailPayload : LoginOutcome → String
  | .reqError msg => msg
  | .httpError _ body => body
  | _ => ""

/-! ## Claim C9 -/

/-- C9: the case converter satisfies the stated example equalities:
`toLowerCamel("") == ""` and `toSeparated("") == ""`;
`toLowerCamel("__lag") == "lag"`, `toLowerCamel("pool_ipv4") == "poolIPv4"`,
`toLowerCamel("vlan_id") == "vlanID"`;
`toSeparated("apiVersion1") == "api_version1"`,
`toSeparated("poolIPv4") == "pool_ipv4"`
(with `toLowerCamel = SnakeToCamel` and `toSeparated = CamelToSnake`). -/
theorem c9_case_converter_examples :
    SnakeToCamel ("") = "" ∧ CamelToSnake ("") = "" ∧
    SnakeToCamel ("__lag") = "lag" ∧
    SnakeToCamel ("pool_ipv4") = "poolIPv4" ∧
    SnakeToCamel ("vlan_id") = "vlanID" ∧
    CamelToSnake ("apiVersion1") = "api_version1" ∧
    CamelToSnake ("poolIPv4") = "pool_ipv4" :=
  ⟨rfl, rfl, rfl, rfl, rfl, rfl, rfl⟩

/-! ## Claim C2 -/

/-- C2: `login` retries up to 5 attempts total with exponential backoff
`1s × 2^attempt`, sleeping after failed attempts 0..3 and not after attempt 4
(accumulated backoff on total failure `1+2+4+8 = 15` seconds; on success at
attempt `k` the accumulated backoff is `2^k - 1`); any attempt that returns a
non-error, non-failure response records `issuedAt = now` and succeeds; if all
5 attempts fail, the call fails with an aggregated error naming the attempt
count 5 and the last error or response. -/
theorem c2_login_retries_and_backoff (resp : Nat → LoginOutcome) (g : Grant) (now : Rat) :
    (∀ k f, k < maxRetries → resp k = .okJSON f →
      (∀ i, i < k → (resp i).isSuccess = false) →
      login resp g now =
        { result := .ok (applyLogin g f now), slept := 2 ^ k - 1, calls := k + 1 } ∧
      (applyLogin g f now).timestamp = some now) ∧
    (∀ k st, k < maxRetries → resp k = .okNoBody st →
      (∀ i, i < k → (resp i).isSuccess = false) →
      login resp g now =
        { result := .ok { g with timestamp := some now }, slept := 2 ^ k - 1,
          calls := k + 1 }) ∧
    ((∀ i, i < maxRetries → (resp i).isSuccess = false) →
      login resp g now =
        { result := .error ("login failed after 5 attempts: " ++ lastFailPayload (resp 4)),
          slept := 15, calls := 5 }) := by
  refine ⟨?_, ?_, ?_⟩
  · intro k f hk hs hfail
    refine ⟨?_, rfl⟩
    have hk5 : k < 5 := hk
    interval_cases k
    · simp [login, loginAttempts, maxRetries, hs]
    · have h0 := hfail 0 (by omega)
      rcases hr0 : resp 0 with m | ⟨st, b⟩ | f0 | st <;>
        rw [hr0] at h0 <;> simp [LoginOutcome.isSuccess] at h0 <;>
        simp [login, loginAttempts, maxRetries, hs, hr0, baseDelay] <;> norm_num
    · have h0 := hfail 0 (by omega); have h1 := hfail 1 (by omega)
      rcases hr0 : resp 0 with m | ⟨st, b⟩ | f0 | st <;>
        rw [hr0] at h0 <;> simp [LoginOutcome.isSuccess] at h0 <;>
      rcases hr1 : resp 1 with m1 | ⟨st1, b1⟩ | f1 | st1 <;>
        rw [hr1] at h1 <;> simp [LoginOutcome.isSuccess] at h1 <;>
        simp [login, loginAttempts, maxRetries, hs, hr0, hr1, baseDelay] <;> norm_num
    · have h0 := hfail 0 (by omega); have h1 := hfail 1 (by omega)
      have h2 := hfail 2 (by omega)
      rcases hr0 : resp 0 with m | ⟨st, b⟩ | f0 | st <;>
        rw [hr0] at h0 <;> simp [LoginOutcome.isSuccess] at h0 <;>
      rcases hr1 : resp 1 with m1 | ⟨st1, b1⟩ | f1 | st1 <;>
        rw [hr1] at h1 <;> simp [LoginOutcome.isSuccess] at h1 <;>
      rcases hr2 : resp 2 with m2 | ⟨st2, b2⟩ | f2 | st2 <;>
        rw [hr2] at h2 <;> simp [LoginOutcome.isSuccess] at h2 <;>
        simp [login, loginAttempts, maxRetries, hs, hr0, hr1, hr2, baseDelay] <;> norm_num
    · have h0 := hfail 0 (by omega); have h1 := hfail 1 (by omega)
      have h2 := hfail 2 (by omega); have h3 := hfail 3 (by omega)
      rcases hr0 : resp 0 with m | ⟨st, b⟩ | f0 | st <;>
        rw [hr0] at h0 <;> simp [LoginOutcome.isSuccess] at h0 <;>
      rcases hr1 : resp 1 with m1 | ⟨st1, b1⟩ | f1 | st1 <;>
        rw [hr1] at h1 <;> simp [LoginOutcome.isSuccess] at h1 <;>
      rcases hr2 : resp 2 with m2 | ⟨st2, b2⟩ | f2 | st2 <;>
        rw [hr2] at h2 <;> simp [LoginOutcome.isSuccess] at h2 <;>
      rcases hr3 : resp 3 with m3 | ⟨st3, b3⟩ | f3 | st3 <;>
        rw [hr3] at h3 <;> simp [LoginOutcome.isSuccess] at h3 <;>
        simp [login, loginAttempts, maxRetries, hs, hr0, hr1, hr2, hr3, baseDelay] <;>
        norm_num
  · intro k st hk hs hfail
    have hk5 : k < 5 := hk
    interval_cases k
    · simp [login, loginAttempts, maxRetries, hs]
    · have h0 := hfail 0 (by omega)
      rcases hr0 : resp 0 with m | ⟨st0, b⟩ | f0 | st0 <;>
        rw [hr0] at h0 <;> simp [LoginOutcome.isSuccess] at h0 <;>
        simp [login, loginAttempts, maxRetries, hs, hr0, baseDelay] <;> norm_num
    · have h0 := hfail 0 (by omega); have h1 := hfail 1 (by omega)
      rcases hr0 : resp 0 with m | ⟨st0, b⟩ | f0 | st0 <;>
        rw [hr0] at h0 <;> simp [LoginOutcome.isSuccess] at h0 <;>
      rcases hr1 : resp 1 with m1 | ⟨st1, b1⟩ | f1 | st1 <;>
        rw [hr1] at h1 <;> simp [LoginOutcome.isSuccess] at h1 <;>
        simp [login, loginAttempts, maxRetries, hs, hr0, hr1, baseDelay] <;> norm_num
    · have h0 := hfail 0 (by omega); have h1 := hfail 1 (by omega)
      have h2 := hfail 2 (by omega)
      rcases hr0 : resp 0 with m | ⟨st0, b⟩ | f0 | st0 <;>
        rw [hr0] at h0 <;> simp [LoginOutcome.isSuccess] at h0 <;>
      rcases hr1 : resp 1 with m1 | ⟨st1, b1⟩ | f1 | st1 <;>
        rw [hr1] at h1 <;> simp [LoginOutcome.isSuccess] at h1 <;>
      rcases hr2 : resp 2 with m2 | ⟨st2, b2⟩ | f2 | st2 <;>
        rw [hr2] at h2 <;> simp [LoginOutcome.isSuccess] at h2 <;>
        simp [login, loginAttempts, maxRetries, hs, hr0, hr1, hr2, baseDelay] <;> norm_num
    · have h0 := hfail 0 (by omega); have h1 := hfail 1 (by omega)
      have h2 := hfail 2 (by omega); have h3 := hfail 3 (by omega)
      rcases hr0 : resp 0 with m | ⟨st0, b⟩ | f0 | st0 <;>
        rw [hr0] at h0 <;> simp [LoginOutcome.isSuccess] at h0 <;>
      rcases hr1 : resp 1 with m1 | ⟨st1, b1⟩ | f1 | st1 <;>
        rw [hr1] at h1 <;> simp [LoginOutcome.isSuccess] at h1 <;>
      rcases hr2 : resp 2 with m2 | ⟨st2, b2⟩ | f2 | st2 <;>
        rw [hr2] at h2 <;> simp [LoginOutcome.isSuccess] at h2 <;>
      rcases hr3 : resp 3 with m3 | ⟨st3, b3⟩ | f3 | st3 <;>
        rw [hr3] at h3 <;> simp [LoginOutcome.isSuccess] at h3 <;>
        simp [login, loginAttempts, maxRetries, hs, hr0, hr1, hr2, hr3, baseDelay] <;>
        norm_num
  · intro hfail
    have h0 := hfail 0 (by norm_num [maxRetries]); have h1 := hfail 1 (by norm_num [maxRetries])
    have h2 := hfail 2 (by norm_num [maxRetries]); have h3 := hfail 3 (by norm_num [maxRetries])
    have h4 := hfail 4 (by norm_num [maxRetries])
    rcases hr0 : resp 0 with m0 | ⟨st0, b0⟩ | f0 | st0 <;>
      rw [hr0] at h0 <;> simp [LoginOutcome.isSuccess] at h0 <;>
    rcases hr1 : resp 1 with m1 | ⟨st1, b1⟩ | f1 | st1 <;>
      rw [hr1] at h1 <;> simp [LoginOutcome.isSuccess] at h1 <;>
    rcases hr2 : resp 2 with m2 | ⟨st2, b2⟩ | f2 | st2 <;>
      rw [hr2] at h2 <;> simp [LoginOutcome.isSuccess] at h2 <;>
    rcases hr3 : resp 3 with m3 | ⟨st3, b3⟩ | f3 | st3 <;>
      rw [hr3] at h3 <;> simp [LoginOutcome.isSuccess] at h3 <;>
    rcases hr4 : resp 4 with m4 | ⟨st4, b4⟩ | f4 | st4 <;>
      rw [hr4] at h4 <;> simp [LoginOutcome.isSuccess] at h4 <;>
      simp [login, loginAttempts, maxRetries, loginFailMsg, lastFailPayload,
        hr0, hr1, hr2, hr3, hr4, baseDelay] <;> norm_num

/-- Witness for C2: a concrete oracle succeeding at attempt 2 after two
transport errors (backoff 1+2 = 3 seconds, 3 calls), and a concrete
always-failing oracle (aggregated error after 5 attempts, backoff 15 s). -/
theorem c2_login_retries_and_backoff_witness :
    login (fun i => if i = 2 then .okJSON ⟨"t", "r", "sc", "ty", 60⟩ else .reqError "x")
        emptyGrant 0 =
      { result := .ok (applyLogin emptyGrant ⟨"t", "r", "sc", "ty", 60⟩ 0), slept := 3,
        calls := 3 } ∧
    login (fun _ => .reqError "boom") emptyGrant 0 =
      { result := .error ("login failed after 5 attempts: " ++ lastFailPayload (.reqError "boom")),
        slept := 15, calls := 5 } := by
  constructor
  · have h := (c2_login_retries_and_backoff
      (fun i => if i = 2 then .okJSON ⟨"t", "r", "sc", "ty", 60⟩ else .reqError "x")
      emptyGrant 0).1 2 ⟨"t", "r", "sc", "ty", 60⟩ (by norm_num [maxRetries]) (by norm_num)
      (by intro i hi; interval_cases i <;> simp [LoginOutcome.isSuccess])
    rw [h.1]
    norm_num
  · have h := (c2_login_retries_and_backoff (fun _ => .reqError "boom") emptyGrant 0).2.2
      (by intro i _; simp [LoginOutcome.isSuccess])
    exact h

/-! ## Claim C1 -/

/-- A failed attempt (`err != nil`) recurses with the backoff accumulated. -/
theorem loginAttempts_reqError_step (resp : Nat → LoginOutcome) (g : Grant) (now : Rat)
    (a r : Nat) (s : Rat) (l : String ⊕ String) (m : String)
    (h : resp a = .reqError m) :
    loginAttempts resp g now a (r + 1) s l =
      loginAttempts resp g now (a + 1) r
        (if a < maxRetries - 1 then s + baseDelay * 2 ^ a else s) (.inl m) := by
  simp [loginAttempts, h]

/-- A failed attempt (HTTP error response) recurses with the backoff
accumulated. -/
theorem loginAttempts_httpError_step (resp : Nat → LoginOutcome) (g : Grant) (now : Rat)
    (a r : Nat) (s : Rat) (l : String ⊕ String) (st b : String)
    (h : resp a = .httpError st b) :
    loginAttempts resp g now a (r + 1) s l =
      loginAttempts resp g now (a + 1) r
        (if a < maxRetries - 1 then s + baseDelay * 2 ^ a else s) (.inr b) := by
  simp [loginAttempts, h]

theorem loginAttempts_calls_ge (resp : Nat → LoginOutcome) (g : Grant) (now : Rat) :
    ∀ remaining attempt slept last,
      attempt + 1 ≤ (loginAttempts resp g now attempt (remaining + 1) slept last).calls := by
  intro remaining
  induction remaining with
  | zero =>
    intro a s l
    cases hr : resp a <;> simp [loginAttempts, hr]
  | succ r ih =>
    intro a s l
    cases hr : resp a with
    | okJSON f => simp [loginAttempts, hr]
    | okNoBody st => simp [loginAttempts, hr]
    | reqError m =>
      rw [loginAttempts_reqError_step resp g now a (r + 1) s l m hr]
      exact le_trans (Nat.le_succ _) (ih (a + 1) _ _)
    | httpError st b =>
      rw [loginAttempts_httpError_step resp g now a (r + 1) s l st b hr]
      exact le_trans (Nat.le_succ _) (ih (a + 1) _ _)

/-- Every `login` call performs at least one network call. -/
theorem login_calls_pos (resp : Nat → LoginOutcome) (g : Grant) (now : Rat) :
    1 ≤ (login resp g now).calls := by
  rw [login, show maxRetries = 5 from rfl]
  exact loginAttempts_calls_ge resp g now 4 0 0 (.inl "")

/-- On the non-cached path, `getAccessToken` performs exactly one `login`
invocation with the body selected by the expiry/refresh-token test. -/
theorem getAccessToken_login_path (cred : ClientCredentials) (g : Grant) (now : Rat)
    (resp : Nat → LoginOutcome)
    (h : ¬(grantExpired g now = false ∧ g.accessToken ≠ "")) :
    (getAccessToken cred g now resp).loginBodies =
      [if grantExpired g now = true ∧ g.refreshToken ≠ "" then
        getOauthBody cred g.refreshToken else getOauthBody cred ""] ∧
    (getAccessToken cred g now resp).calls = (login resp g now).calls := by
  rw [getAccessToken]
  simp only [h, if_false]
  cases hl : (login resp g now).result with
  | error e => simp
  | ok g' =>
    by_cases hg : g'.accessToken = "" <;> simp [hg]

/-- C1 counterexample: three concrete grant states refute the claimed state
machine.  (i) At `elapsed = expiresInSeconds` exactly (issuedAt 0, expiry 10,
now 10) the claim requires a refresh-grant login; the code's strict
`elapsed > ExpiresInSecs` comparison returns the cached token with zero
network calls.  (ii) With `expiresInSeconds = 0` (issuedAt 0, now 100,
elapsed 100 ≥ 0) the claim requires a login; the code's `ExpiresInSecs != 0`
guard keeps the grant valid and returns the cached token.  (iii) With
issuedAt set, `elapsed = 5 < 10 = expiresInSeconds` but an empty cached
token, the claim requires the cached token with no network call; the code
logs in (5 failing network calls) and returns the aggregated login error. -/
theorem c1_counterexample :
    (getAccessToken ⟨"u", "c", "s", "n", "p"⟩
        { accessToken := "tok", refreshToken := "ref", scope := "", tokenType := "",
          expiresInSecs := 10, timestamp := some 0 } 10 (fun _ => .reqError "boom") =
      { token := .ok "tok",
        grant := { accessToken := "tok", refreshToken := "ref", scope := "",
                   tokenType := "", expiresInSecs := 10, timestamp := some 0 },
        loginBodies := [], calls := 0, slept := 0 }) ∧
    (getAccessToken ⟨"u", "c", "s", "n", "p"⟩
        { accessToken := "tok", refreshToken := "", scope := "", tokenType := "",
          expiresInSecs := 0, timestamp := some 0 } 100 (fun _ => .reqError "boom") =
      { token := .ok "tok",
        grant := { accessToken := "tok", refreshToken := "", scope := "",
                   tokenType := "", expiresInSecs := 0, timestamp := some 0 },
        loginBodies := [], calls := 0, slept := 0 }) ∧
    ((getAccessToken ⟨"u", "c", "s", "n", "p"⟩
        { accessToken := "", refreshToken := "", scope := "", tokenType := "",
          expiresInSecs := 10, timestamp := some 0 } 5 (fun _ => .reqError "boom")).token =
      .error ("login failed after 5 attempts: " ++ "boom") ∧
     (getAccessToken ⟨"u", "c", "s", "n", "p"⟩
        { accessToken := "", refreshToken := "", scope := "", tokenType := "",
          expiresInSecs := 10, timestamp := some 0 } 5 (fun _ => .reqError "boom")).calls = 5) := by
  refine ⟨?_, ?_, ?_⟩
  · have he : grantExpired
        { accessToken := "tok", refreshToken := "ref", scope := "", tokenType := "",
          expiresInSecs := 10, timestamp := some 0 } 10 = false := by
      norm_num [grantExpired]
    simp [getAccessToken, he]
  · have he : grantExpired
        { accessToken := "tok", refreshToken := "", scope := "", tokenType := "",
          expiresInSecs := 0, timestamp := some 0 } 100 = false := by
      norm_num [grantExpired]
    simp [getAccessToken, he]
  · have he : grantExpired
        { accessToken := "", refreshToken := "", scope := "", tokenType := "",
          expiresInSecs := 10, timestamp := some 0 } 5 = false := by
      norm_num [grantExpired]
    constructor <;>
      simp [getAccessToken, he, login, loginAttempts, maxRetries, loginFailMsg]

/-- C1 (amended): the code's per-grant state machine.  `getAccessToken`
returns the cached token with zero network calls iff the grant is not expired
— where expired means issuedAt is set, `expiresInSeconds ≠ 0` and elapsed is
strictly greater than `expiresInSeconds` — and the cached accessToken is
nonempty.  Otherwise it logs in (at least one network call): with the refresh
grant when expired and a refresh token is present, and with the password grant
otherwise (in particular whenever issuedAt is unset, since the grant is then
never expired). -/
theorem c1_amended_token_state_machine (cred : ClientCredentials) (g : Grant) (now : Rat)
    (resp : Nat → LoginOutcome) :
    (grantExpired g now = false → g.accessToken ≠ "" →
      getAccessToken cred g now resp =
        { token := .ok g.accessToken, grant := g, loginBodies := [], calls := 0,
          slept := 0 }) ∧
    (grantExpired g now = true → g.refreshToken ≠ "" →
      (getAccessToken cred g now resp).loginBodies = [getOauthBody cred g.refreshToken] ∧
      lookupS KEY_GRANT_TYPE (getOauthBody cred g.refreshToken) = some KEY_REFRESH_GRANT ∧
      1 ≤ (getAccessToken cred g now resp).calls) ∧
    ((grantExpired g now = false ∧ g.accessToken = "") ∨
        (grantExpired g now = true ∧ g.refreshToken = "") →
      (getAccessToken cred g now resp).loginBodies = [getOauthBody cred ""] ∧
      lookupS KEY_GRANT_TYPE (getOauthBody cred "") = some KEY_PASSWORD_GRANT ∧
      1 ≤ (getAccessToken cred g now resp).calls) ∧
    (g.timestamp = none → grantExpired g now = false) := by
  refine ⟨?_, ?_, ?_, ?_⟩
  · intro he ht
    simp [getAccessToken, he, ht]
  · intro he hr
    have hnc : ¬(grantExpired g now = false ∧ g.accessToken ≠ "") := by simp [he]
    have hpath := getAccessToken_login_path cred g now resp hnc
    refine ⟨?_, ?_, ?_⟩
    · rw [hpath.1]
      simp [he, hr]
    · simp [getOauthBody, hr, lookupS, KEY_GRANT_TYPE, KEY_CLIENT_ID, KEY_CLIENT_SECRET,
        KEY_REFRESH_GRANT]
    · rw [hpath.2]
      exact login_calls_pos resp g now
  · intro hcase
    have hnc : ¬(grantExpired g now = false ∧ g.accessToken ≠ "") := by
      rcases hcase with ⟨he, ht⟩ | ⟨he, hr⟩
      · simp [he, ht]
      · simp [he]
    have hpath := getAccessToken_login_path cred g now resp hnc
    refine ⟨?_, ?_, ?_⟩
    · rw [hpath.1]
      rcases hcase with ⟨he, ht⟩ | ⟨he, hr⟩
      · simp [he]
      · simp [he, hr]
    · simp [getOauthBody, lookupS, KEY_GRANT_TYPE, KEY_CLIENT_ID, KEY_CLIENT_SECRET,
        KEY_PASSWORD_GRANT]
    · rw [hpath.2]
      exact login_calls_pos resp g now
  · intro hn
    simp [grantExpired, hn]

/-- Witness for C1 (amended), at concrete states: a valid cached grant
(issuedAt 0, expiry 10, now 5, token "tok") is returned with zero calls; an
expired grant with a refresh token (now 20) logs in with the refresh-grant
body; an expired grant without a refresh token logs in with the password
body; a fresh grant (no issuedAt) is never expired. -/
theorem c1_amended_token_state_machine_witness :
    (getAccessToken ⟨"u", "c", "s", "n", "p"⟩
        { accessToken := "tok", refreshToken := "ref", scope := "", tokenType := "",
          expiresInSecs := 10, timestamp := some 0 } 5 (fun _ => .reqError "x") =
      { token := .ok "tok",
        grant := { accessToken := "tok", refreshToken := "ref", scope := "",
                   tokenType := "", expiresInSecs := 10, timestamp := some 0 },
        loginBodies := [], calls := 0, slept := 0 }) ∧
    ((getAccessToken ⟨"u", "c", "s", "n", "p"⟩
        { accessToken := "tok", refreshToken := "ref", scope := "", tokenType := "",
          expiresInSecs := 10, timestamp := some 0 } 20 (fun _ => .reqError "x")).loginBodies =
      [getOauthBody ⟨"u", "c", "s", "n", "p"⟩ "ref"] ∧
     lookupS KEY_GRANT_TYPE (getOauthBody ⟨"u", "c", "s", "n", "p"⟩ "ref") =
       some KEY_REFRESH_GRANT) ∧
    ((getAccessToken ⟨"u", "c", "s", "n", "p"⟩
        { accessToken := "tok", refreshToken := "", scope := "", tokenType := "",
          expiresInSecs := 10, timestamp := some 0 } 20 (fun _ => .reqError "x")).loginBodies =
      [getOauthBody ⟨"u", "c", "s", "n", "p"⟩ ""] ∧
     lookupS KEY_GRANT_TYPE (getOauthBody ⟨"u", "c", "s", "n", "p"⟩ "") =
       some KEY_PASSWORD_GRANT) ∧
    grantExpired
      { accessToken := "", refreshToken := "", scope := "", tokenType := "",
        expiresInSecs := 10, timestamp := none } 7 = false := by
  refine ⟨?_, ?_, ?_, ?_⟩
  · exact (c1_amended_token_state_machine ⟨"u", "c", "s", "n", "p"⟩
      { accessToken := "tok", refreshToken := "ref", scope := "", tokenType := "",
        expiresInSecs := 10, timestamp := some 0 } 5 (fun _ => .reqError "x")).1
      (by norm_num [grantExpired]) (by decide)
  · have h := (c1_amended_token_state_machine ⟨"u", "c", "s", "n", "p"⟩
      { accessToken := "tok", refreshToken := "ref", scope := "", tokenType := "",
        expiresInSecs := 10, timestamp := some 0 } 20 (fun _ => .reqError "x")).2.1
      (by norm_num [grantExpired]) (by decide)
    exact ⟨h.1, h.2.1⟩
  · have h := (c1_amended_token_state_machine ⟨"u", "c", "s", "n", "p"⟩
      { accessToken := "tok", refreshToken := "", scope := "", tokenType := "",
        expiresInSecs := 10, timestamp := some 0 } 20 (fun _ => .reqError "x")).2.2.1
      (Or.inr ⟨by norm_num [grantExpired], rfl⟩)
    exact ⟨h.1, h.2.1⟩
  · exact (c1_amended_token_state_machine ⟨"u", "c", "s", "n", "p"⟩
      { accessToken := "", refreshToken := "", scope := "", tokenType := "",
        expiresInSecs := 10, timestamp := none } 7 (fun _ => .reqError "x")).2.2.2 rfl

/-! ## Claim C3 -/

/-- C3 counterexample: with an administrative listing of TWO matches the claim
("requires exactly one match") demands a failure; the code accepts the listing
and returns the first entry's secret.  The login oracle answers the secondary
token request with a 2xx response carrying token "tok". -/
theorem c3_counterexample :
    getClientSecret ⟨"master", "admin-cli", "admin", "pw", "eda"⟩ emptyGrant 0
      (fun _ => .okJSON ⟨"tok", "", "", "", 60⟩)
      (fun _ => .ok [[("secret", "s1")], [("secret", "s2")]]) "myclient" = .ok "s1" := by
  simp [getClientSecret, getAccessToken, grantExpired, emptyGrant, login, loginAttempts,
    maxRetries, applyLogin, lookupS]

/-- C3 (amended): `getClientSecret` obtains a token for the secondary
(Keycloak) identity-provider pair built from the configuration, queries the
administrative listing at `CLIENT_URL` filtered by `clientId = id` (path
parameter `realm = EdaRealm`), and requires at least one match, extracting the
"secret" field from the FIRST match; it fails with the "client not found"
error when the listing has zero matches, fails with the "client secret not
found" error when the first match lacks a secret field, and propagates token
and query failures. -/
theorem c3_amended_client_secret (cfg : KcConfig) (kcGrant : Grant) (now : Rat)
    (loginResp : Nat → LoginOutcome)
    (query : QueryRequest → Except String (List (List (String × String))))
    (id : String) :
    (∀ e, (getAccessToken (kcCred cfg) kcGrant now loginResp).token = .error e →
      getClientSecret cfg kcGrant now loginResp query id = .error e) ∧
    (∀ tok, (getAccessToken (kcCred cfg) kcGrant now loginResp).token = .ok tok →
      (∀ e, query (adminQueryReq cfg tok id) = .error e →
        getClientSecret cfg kcGrant now loginResp query id = .error e) ∧
      (query (adminQueryReq cfg tok id) = .ok [] →
        getClientSecret cfg kcGrant now loginResp query id =
          .error ("client not found: " ++ id)) ∧
      (∀ first rest, query (adminQueryReq cfg tok id) = .ok (first :: rest) →
        (lookupS ("secret") first = none →
          getClientSecret cfg kcGrant now loginResp query id =
            .error ("client secret not found for client: " ++ id)) ∧
        (∀ sec, lookupS ("secret") first = some sec →
          getClientSecret cfg kcGrant now loginResp query id = .ok sec))) := by
  constructor
  · intro e he
    simp [getClientSecret, he]
  · intro tok htok
    refine ⟨?_, ?_, ?_⟩
    · intro e hq
      simp [getClientSecret, htok, hq]
    · intro hq
      simp [getClientSecret, htok, hq]
    · intro first rest hq
      constructor
      · intro hs
        simp [getClientSecret, htok, hq, hs]
      · intro sec hs
        simp [getClientSecret, htok, hq, hs]

/-- Witness for C3 (amended), at a concrete configuration and oracles: the
zero-match listing produces the "client not found" error, a single-match
listing without a secret field produces the "client secret not found" error,
and a single-match listing with a secret yields it. -/
theorem c3_amended_client_secret_witness :
    getClientSecret ⟨"master", "admin-cli", "admin", "pw", "eda"⟩ emptyGrant 0
        (fun _ => .okJSON ⟨"tok", "", "", "", 60⟩) (fun _ => .ok []) "c1" =
      .error ("client not found: " ++ "c1") ∧
    getClientSecret ⟨"master", "admin-cli", "admin", "pw", "eda"⟩ emptyGrant 0
        (fun _ => .okJSON ⟨"tok", "", "", "", 60⟩) (fun _ => .ok [[("name", "x")]]) "c2" =
      .error ("client secret not found for client: " ++ "c2") ∧
    getClientSecret ⟨"master", "admin-cli", "admin", "pw", "eda"⟩ emptyGrant 0
        (fun _ => .okJSON ⟨"tok", "", "", "", 60⟩) (fun _ => .ok [[("secret", "sek")]]) "c3" =
      .ok "sek" := by
  have htok : ∀ idv : String,
      (getAccessToken (kcCred ⟨"master", "admin-cli", "admin", "pw", "eda"⟩) emptyGrant 0
        (fun _ => .okJSON ⟨"tok", "", "", "", 60⟩)).token = .ok "tok" := by
    intro _
    simp [getAccessToken, grantExpired, emptyGrant, login, loginAttempts, maxRetries,
      applyLogin]
  refine ⟨?_, ?_, ?_⟩
  · exact ((c3_amended_client_secret ⟨"master", "admin-cli", "admin", "pw", "eda"⟩
      emptyGrant 0 (fun _ => .okJSON ⟨"tok", "", "", "", 60⟩) (fun _ => .ok []) "c1").2
      "tok" (htok "c1")).2.1 rfl
  · exact (((c3_amended_client_secret ⟨"master", "admin-cli", "admin", "pw", "eda"⟩
      emptyGrant 0 (fun _ => .okJSON ⟨"tok", "", "", "", 60⟩)
      (fun _ => .ok [[("name", "x")]]) "c2").2
      "tok" (htok "c2")).2.2 [("name", "x")] [] rfl).1 rfl
  · exact (((c3_amended_client_secret ⟨"master", "admin-cli", "admin", "pw", "eda"⟩
      emptyGrant 0 (fun _ => .okJSON ⟨"tok", "", "", "", 60⟩)
      (fun _ => .ok [[("secret", "sek")]]) "c3").2
      "tok" (htok "c3")).2.2 [("secret", "sek")] [] rfl).2 "sek" rfl

/-! ## Claim C4 -/

/-- The numeric representations that denote the 64-bit integer `m` exactly
(losslessly): any signed Go integer with value `m`; an unsigned Go integer
with value `m` (below `2^63` for the 64-bit widths, where Go's conversion
would otherwise wrap); a float with exact integral value `m` in the int64
range (outside it, Go's float conversion is implementation-dependent); a
string that `strconv.ParseInt` evaluates to `m`. -/
def reprExact : NativeValue → Int → Bool
  | .nnum (.gint n), m => decide (n = m)
  | .nnum (.gint8 n), m => decide (n = m)
  | .nnum (.gint16 n), m => decide (n = m)
  | .nnum (.gint32 n), m => decide (n = m)
  | .nnum (.gint64 n), m => decide (n = m)
  | .nnum (.guint n), m => decide ((n : Int) = m ∧ n < 2 ^ 63)
  | .nnum (.guint8 n), m => decide ((n : Int) = m)
  | .nnum (.guint16 n), m => decide ((n : Int) = m)
  | .nnum (.guint32 n), m => decide ((n : Int) = m)
  | .nnum (.guint64 n), m => decide ((n : Int) = m ∧ n < 2 ^ 63)
  | .nnum (.gfloat32 q), m => decide (q = (m : Rat) ∧ int64Min ≤ m ∧ m ≤ int64Max)
  | .nnum (.gfloat64 q), m => decide (q = (m : Rat) ∧ int64Min ≤ m ∧ m ≤ int64Max)
  | .nstr s, m =>
    match parseInt64 s with
    | .ok r => decide (r = m)
    | .error _ => false
  | _, _ => false

theorem ratTrunc_intCast (m : Int) : ratTrunc ((m : Int) : Rat) = m := by
  simp [ratTrunc, Rat.num_intCast, Rat.den_intCast, Int.tdiv_one]

theorem wrap64_small {n : Nat} (h : n < 2 ^ 63) : wrap64 n = (n : Int) := by
  have h64 : n < 2 ^ 64 := lt_trans h (by norm_num)
  simp only [wrap64, Nat.mod_eq_of_lt h64]
  rw [if_pos h]

/-- C4 counterexample: the non-integral float `2.5` admits no lossless
conversion to a 64-bit integer, so the claim requires an error; `NumToInt64`
succeeds with the truncated value 2. -/
theorem c4_counterexample :
    NumToInt64 (.nnum (.gfloat64 (5 / 2))) = .ok 2 ∧ ¬((5 : Rat) / 2 = ((2 : Int) : Rat)) := by
  constructor
  · have h1 : ((5 : Rat) / 2).num = 5 := by norm_num
    have h2 : ((5 : Rat) / 2).den = 2 := by norm_num
    simp [NumToInt64, ratTrunc, h1, h2]
    decide
  · norm_num

/-- C4 (amended): `NumToInt64` accepts any numeric representation and returns
the exact 64-bit integer whenever the representation is lossless (signed
integers of any width; unsigned integers below `2^63`; integral in-range
floats; base-10 integer strings in range); but instead of erroring when a
lossless conversion is impossible, it truncates floats toward zero and wraps
64-bit unsigned values modulo `2^64` into the signed range (negative for
values `≥ 2^63`); errors arise only from unparsable or out-of-range strings
and from non-numeric dynamic types. -/
theorem c4_amended_num_to_int64 :
    (∀ v m, reprExact v m = true → NumToInt64 v = .ok m) ∧
    (∀ q, NumToInt64 (.nnum (.gfloat64 q)) = .ok (ratTrunc q)) ∧
    (∀ n, NumToInt64 (.nnum (.guint64 n)) = .ok (wrap64 n)) ∧
    (∀ n : Nat, 2 ^ 63 ≤ n → n < 2 ^ 64 → wrap64 n < 0) ∧
    (∀ s, NumToInt64 (.nstr s) = parseInt64 s) ∧
    (∀ b, NumToInt64 (.nbool b) = .error ("unsupported type")) ∧
    NumToInt64 .nnull = .error ("unsupported type") := by
  refine ⟨?_, fun q => rfl, fun n => rfl, ?_, fun s => rfl, fun b => rfl, rfl⟩
  · intro v m h
    match v with
    | .nnum (.gint n) =>
      simp [reprExact] at h
      simp [NumToInt64, h]
    | .nnum (.gint8 n) =>
      simp [reprExact] at h
      simp [NumToInt64, h]
    | .nnum (.gint16 n) =>
      simp [reprExact] at h
      simp [NumToInt64, h]
    | .nnum (.gint32 n) =>
      simp [reprExact] at h
      simp [NumToInt64, h]
    | .nnum (.gint64 n) =>
      simp [reprExact] at h
      simp [NumToInt64, h]
    | .nnum (.guint n) =>
      simp [reprExact] at h
      simp [NumToInt64, wrap64_small h.2, h.1]
    | .nnum (.guint8 n) =>
      simp [reprExact] at h
      simp [NumToInt64, h]
    | .nnum (.guint16 n) =>
      simp [reprExact] at h
      simp [NumToInt64, h]
    | .nnum (.guint32 n) =>
      simp [reprExact] at h
      simp [NumToInt64, h]
    | .nnum (.guint64 n) =>
      simp [reprExact] at h
      simp [NumToInt64, wrap64_small h.2, h.1]
    | .nnum (.gfloat32 q) =>
      simp [reprExact] at h
      simp [NumToInt64, h.1, ratTrunc_intCast]
    | .nnum (.gfloat64 q) =>
      simp [reprExact] at h
      simp [NumToInt64, h.1, ratTrunc_intCast]
    | .nstr s =>
      rw [NumToInt64]
      simp only [reprExact] at h
      cases hp : parseInt64 s with
      | ok r => rw [hp] at h; simp at h; rw [h]
      | error e => rw [hp] at h; simp at h
  · intro n h1 h2
    have : n % 2 ^ 64 = n := Nat.mod_eq_of_lt h2
    simp only [wrap64, this]
    have hles : ¬(n < 2 ^ 63) := by omega
    simp only [hles, if_false]
    have : (n : Int) < 2 ^ 64 := by exact_mod_cast h2
    omega

/-- Witness for C4 (amended): the string "42" and the integral float 7 are
lossless representations of 42 and 7 and convert exactly; 2^63 wraps to a
negative value. -/
theorem c4_amended_num_to_int64_witness :
    NumToInt64 (.nstr "42") = .ok 42 ∧
    NumToInt64 (.nnum (.gfloat64 ((7 : Int) : Rat))) = .ok 7 ∧
    wrap64 (2 ^ 63) < 0 := by
  refine ⟨?_, ?_, ?_⟩
  · exact c4_amended_num_to_int64.1 (.nstr "42") 42 (by decide)
  · exact c4_amended_num_to_int64.1 (.nnum (.gfloat64 ((7 : Int) : Rat))) 7
      (by simp [reprExact, int64Min, int64Max])
  · exact c4_amended_num_to_int64.2.2.2.1 (2 ^ 63) (by norm_num) (by norm_num)

/-! ## Claim C7 -/

theorem mkObjectValue_ok {ats : List (String × AttrType)}
    {kvs : List (String × AttrValue)} {w : AttrValue}
    (h : mkObjectValue ats kvs = .ok w) :
    w = .objectV ats (.known kvs) ∧ objectFieldsOk ats kvs = true := by
  rw [mkObjectValue] at h
  by_cases hc : objectFieldsOk ats kvs = true
  · rw [if_pos hc] at h
    simp at h
    exact ⟨h.symm, hc⟩
  · rw [if_neg hc] at h
    simp at h

/-- Every nil-value branch of `newValue` yields the typed null of the
requested type (and the tuple default case cannot return a value at all). -/
theorem newValue_nnull_ok {t : AttrType} {pre : Bool} {av : AttrValue}
    (h : newValue t .nnull pre = .ok av) : av = typedNull t := by
  cases t <;> simp_all [newValue, typedNull]

theorem newValueFields_ok :
    ∀ (ats : List (String × AttrType)) (m : List (String × NativeValue)) (pre : Bool)
      (l : List (String × AttrValue)), newValueFields ats m pre = .ok l →
      l.map Prod.fst = ats.map Prod.fst ∧
      (∀ name ft, (name, ft) ∈ ats → lookupS (SnakeToCamel name) m = none →
        (name, typedNull ft) ∈ l) := by
  intro ats
  induction ats with
  | nil =>
    intro m pre l h
    simp [newValueFields] at h
    simp [← h]
  | cons p rest ih =>
    intro m pre l h
    obtain ⟨name, ft⟩ := p
    simp only [newValueFields] at h
    cases hv : newValue ft ((lookupS (SnakeToCamel name) m).getD .nnull)
        (pre || ignoreCaseNames.contains name) with
    | error e => rw [hv] at h; simp at h
    | ok w =>
      rw [hv] at h
      cases ht : newValueFields rest m pre with
      | error e => rw [ht] at h; simp at h
      | ok tail =>
        rw [ht] at h
        simp at h
        obtain ⟨hmap, htail⟩ := ih m pre tail ht
        constructor
        · simp [← h, hmap]
        · intro nm ft2 hmem hlk
          rcases List.mem_cons.mp hmem with heq | hmem2
          · obtain ⟨rfl, rfl⟩ := Prod.mk.injEq .. ▸ heq
            have hv' : newValue ft2 .nnull (pre || ignoreCaseNames.contains nm) = .ok w := by
              rw [← hv]
              simp [hlk]
            have := newValue_nnull_ok hv'
            rw [← h]
            exact List.mem_cons.mpr (Or.inl (by rw [this]))
          · rw [← h]
            exact List.mem_cons.mpr (Or.inr (htail nm ft2 hmem2 hlk))

/-- C7: on the native→typed direction, object conversion produces a value
binding every declared attribute name (in the declared order), and a field
whose `SnakeToCamel`-converted key is absent from the native data is bound to
the field type's typed null. -/
theorem c7_object_conversion_fields_complete (ats : List (String × AttrType))
    (m : List (String × NativeValue)) (pre : Bool) (w : AttrValue)
    (h : newValue (.objectT ats) (.nmapv m) pre = .ok w) :
    ∃ l, w = .objectV ats (.known l) ∧ l.map Prod.fst = ats.map Prod.fst ∧
      ∀ name ft, (name, ft) ∈ ats → lookupS (SnakeToCamel name) m = none →
        (name, typedNull ft) ∈ l := by
  simp only [newValue] at h
  cases hf : newValueFields ats m pre with
  | error e => rw [hf] at h; simp at h
  | ok l =>
    rw [hf] at h
    obtain ⟨hw, _⟩ := mkObjectValue_ok h
    obtain ⟨h1, h2⟩ := newValueFields_ok ats m pre l hf
    exact ⟨l, hw, h1, h2⟩

/-- Witness for C7: converting `{"a": true}` at object type
`{a: Bool, b: String}` succeeds; the declared field "b", absent from the
native data, is bound to the typed string null in the result. -/
theorem c7_object_conversion_fields_complete_witness :
    newValue (.objectT [("a", .boolT), ("b", .stringT)]) (.nmapv [("a", .nbool true)]) false =
      .ok (.objectV [("a", .boolT), ("b", .stringT)]
        (.known [("a", .boolV (.known true)), ("b", .stringV .null)])) ∧
    ("b", typedNull .stringT) ∈
      [("a", AttrValue.boolV (.known true)), ("b", AttrValue.stringV .null)] := by
  have hsa : SnakeToCamel ("a") = "a" := rfl
  have hsb : SnakeToCamel ("b") = "b" := rfl
  have heval : newValue (.objectT [("a", .boolT), ("b", .stringT)])
      (.nmapv [("a", .nbool true)]) false =
      .ok (.objectV [("a", .boolT), ("b", .stringT)]
        (.known [("a", .boolV (.known true)), ("b", .stringV .null)])) := by
    simp [newValue, newValueFields, mkObjectValue, objectFieldsOk, teq, lookupS, hsa, hsb,
      ignoreCaseNames, AttrValue.typeOf]
  refine ⟨heval, ?_⟩
  obtain ⟨l, hw, _, habs⟩ := c7_object_conversion_fields_complete _ _ _ _ heval
  have hl : l = [("a", AttrValue.boolV (.known true)), ("b", AttrValue.stringV .null)] := by
    simp at hw
    exact hw.symm
  have := habs "b" .stringT (by simp) (by rw [hsb]; rfl)
  rw [hl] at this
  exact this

/-! ## Claim C5 -/

/-- Key production of the `MapType` loop of `newValue`: on success, the
produced key sequence is, entry by entry, the original key when a scope is
active for that entry (already active, or opened because the key is
case-preserving) and the `SnakeToCamel` conversion of it otherwise. -/
theorem newValueMapEntries_keys :
    ∀ (e : AttrType) (kvs : List (String × NativeValue)) (pre : Bool)
      (l : List (String × AttrValue)), newValueMapEntries e kvs pre = .ok l →
      l.map Prod.fst = kvs.map (fun kv =>
        if pre || ignoreCaseNames.contains kv.1 then kv.1 else SnakeToCamel kv.1) := by
  intro e kvs
  induction kvs with
  | nil =>
    intro pre l h
    simp [newValueMapEntries] at h
    simp [← h]
  | cons kv rest ih =>
    intro pre l h
    obtain ⟨k, v⟩ := kv
    simp only [newValueMapEntries] at h
    cases hv : newValue e v (pre || ignoreCaseNames.contains k) with
    | error e2 => rw [hv] at h; simp at h
    | ok w =>
      rw [hv] at h
      cases ht : newValueMapEntries e rest pre with
      | error e2 => rw [ht] at h; simp at h
      | ok tail =>
        rw [ht] at h
        simp at h
        simp [← h, ih pre tail ht]

/-- Key production of the `MapValue`/`ObjectValue` loop of `fromValue`: null
and unknown entries produce nothing; for the remaining entries the output key
is verbatim while a scope is active (already active or opened for that
case-preserving key) and `SnakeToCamel`-converted otherwise. -/
theorem fromEntries_keys :
    ∀ (kvs : List (String × AttrValue)) (pre : Bool) (l : List (String × NativeValue)),
      fromEntries kvs pre = .ok l →
      l.map Prod.fst = (kvs.filter (fun kv => !(kv.2.isNull || kv.2.isUnknown))).map
        (fun kv => if pre || ignoreCaseNames.contains kv.1 then kv.1
                   else SnakeToCamel kv.1) := by
  intro kvs
  induction kvs with
  | nil =>
    intro pre l h
    simp [fromEntries] at h
    simp [← h]
  | cons kv rest ih =>
    intro pre l h
    obtain ⟨k, v⟩ := kv
    simp only [fromEntries] at h
    by_cases hs : (v.isNull || v.isUnknown) = true
    · rw [if_pos hs] at h
      have hf : (!(v.isNull || v.isUnknown)) = false := by simp [hs]
      simp only [List.filter_cons, hf, Bool.false_eq_true, if_false]
      exact ih pre l h
    · rw [if_neg hs] at h
      cases hv : fromValue v (pre || ignoreCaseNames.contains k) with
      | error e2 => rw [hv] at h; simp at h
      | ok w =>
        rw [hv] at h
        cases ht : fromEntries rest pre with
        | error e2 => rw [ht] at h; simp at h
        | ok tail =>
          rw [ht] at h
          simp at h
          have hf : (!(v.isNull || v.isUnknown)) = true := by simp [hs]
          simp only [List.filter_cons, hf, if_true]
          rw [← h]
          simp only [List.map_cons]
          rw [ih pre tail ht]
          simp

/-- C5 counterexample: in the native→typed direction with no active scope,
the map key "vlan_id" is converted by `SnakeToCamel` into the camel-like key
"vlanID" in the TYPED value — not left verbatim and not separator-like, where
the claim requires typed keys to be separator-like. -/
theorem c5_counterexample :
    newValue (.mapT .stringT) (.nmapv [("vlan_id", .nstr "v")]) false =
      .ok (.mapV .stringT (.known [("vlanID", .stringV (.known "v"))])) ∧
    ("vlanID" : String) ≠ "vlan_id" := by
  constructor
  · have hs : SnakeToCamel ("vlan_id") = "vlanID" := rfl
    have hc : ("vlan_id" : String) ∉ ignoreCaseNames := by decide
    simp [newValue, newValueMapEntries, mkMapValue, teq, hs, hc, AttrValue.typeOf]
  · decide

/-- C5 (amended): while a case-preserving visit scope is active, map keys
pass through verbatim in both conversion directions; otherwise keys are
converted through the case converter's camelizing direction (`SnakeToCamel`)
in BOTH directions — so native output keys are camel-like, and typed map keys
produced by the native→typed direction are camelized as well (only declared
object attribute names remain separator-like, by construction).  In
particular, for the object type `{name: String, labels: Map(String)}` whose
field "labels" is in the case-preserving set, the native datum
`{"name": "x", "labels": {"MixedCase": "v"}}` converts to a typed value whose
"labels" key "MixedCase" is left unmodified. -/
theorem c5_amended_scope_key_casing :
    (∀ e kvs l, newValueMapEntries e kvs true = .ok l →
      l.map Prod.fst = kvs.map Prod.fst) ∧
    (∀ kvs l, fromEntries kvs true = .ok l →
      l.map Prod.fst =
        (kvs.filter (fun kv => !(kv.2.isNull || kv.2.isUnknown))).map Prod.fst) ∧
    (∀ e kvs l, newValueMapEntries e kvs false = .ok l →
      l.map Prod.fst = kvs.map (fun kv =>
        if ignoreCaseNames.contains kv.1 then kv.1 else SnakeToCamel kv.1)) ∧
    (∀ kvs l, fromEntries kvs false = .ok l →
      l.map Prod.fst = (kvs.filter (fun kv => !(kv.2.isNull || kv.2.isUnknown))).map
        (fun kv => if ignoreCaseNames.contains kv.1 then kv.1 else SnakeToCamel kv.1)) ∧
    newValue (.objectT [("name", .stringT), ("labels", .mapT .stringT)])
        (.nmapv [("name", .nstr "x"), ("labels", .nmapv [("MixedCase", .nstr "v")])])
        false =
      .ok (.objectV [("name", .stringT), ("labels", .mapT .stringT)]
        (.known [("name", .stringV (.known "x")),
                 ("labels", .mapV .stringT (.known [("MixedCase", .stringV (.known "v"))]))])) := by
  refine ⟨?_, ?_, ?_, ?_, ?_⟩
  · intro e kvs l h
    simpa using newValueMapEntries_keys e kvs true l h
  · intro kvs l h
    simpa using fromEntries_keys kvs true l h
  · intro e kvs l h
    simpa using newValueMapEntries_keys e kvs false l h
  · intro kvs l h
    simpa using fromEntries_keys kvs false l h
  · have hsn : SnakeToCamel ("name") = "name" := rfl
    have hsl : SnakeToCamel ("labels") = "labels" := rfl
    have hcn : ("name" : String) ∉ ignoreCaseNames := by decide
    have hcl : ("labels" : String) ∈ ignoreCaseNames := by decide
    simp [newValue, newValueFields, newValueMapEntries, mkObjectValue, mkMapValue,
      objectFieldsOk, teq, lookupS, hsn, hsl, hcn, hcl, AttrValue.typeOf]

/-- Witness for C5 (amended): concrete instances of the four conditional
clauses — a verbatim key under an active scope in both directions, and a
camelized key with no scope in both directions; the key sequences are derived
by applying the amended theorem to the evaluated conversions. -/
theorem c5_amended_scope_key_casing_witness :
    ([("Mixed_Case", AttrValue.stringV (.known "v"))].map Prod.fst = ["Mixed_Case"]) ∧
    ([("Mixed_Case", NativeValue.nstr "v")].map Prod.fst = ["Mixed_Case"]) ∧
    ([("vlanID", AttrValue.stringV (.known "v"))].map Prod.fst = ["vlanID"]) ∧
    ([("vlanID", NativeValue.nstr "v")].map Prod.fst = ["vlanID"]) := by
  have hs : SnakeToCamel ("vlan_id") = "vlanID" := rfl
  have hmc : ("Mixed_Case" : String) ∉ ignoreCaseNames := by decide
  have hvl : ("vlan_id" : String) ∉ ignoreCaseNames := by decide
  refine ⟨?_, ?_, ?_, ?_⟩
  · have h := c5_amended_scope_key_casing.1 .stringT [("Mixed_Case", .nstr "v")]
      [("Mixed_Case", .stringV (.known "v"))] (by simp [newValueMapEntries, newValue])
    simpa using h
  · have h := c5_amended_scope_key_casing.2.1 [("Mixed_Case", AttrValue.stringV (.known "v"))]
      [("Mixed_Case", .nstr "v")]
      (by simp [fromEntries, fromValue, AttrValue.isNull, AttrValue.isUnknown, VState.isNull,
        VState.isUnknown, VState.getD, hmc])
    simpa [AttrValue.isNull, AttrValue.isUnknown, VState.isNull, VState.isUnknown] using h
  · have h := c5_amended_scope_key_casing.2.2.1 .stringT [("vlan_id", .nstr "v")]
      [("vlanID", .stringV (.known "v"))] (by simp [newValueMapEntries, newValue, hvl, hs])
    simpa [hvl, hs] using h
  · have h := c5_amended_scope_key_casing.2.2.2.1 [("vlan_id", AttrValue.stringV (.known "v"))]
      [("vlanID", .nstr "v")]
      (by simp [fromEntries, fromValue, AttrValue.isNull, AttrValue.isUnknown, VState.isNull,
        VState.isUnknown, VState.getD, hvl, hs])
    simpa [AttrValue.isNull, AttrValue.isUnknown, VState.isNull, VState.isUnknown, hvl, hs]
      using h

/-! ## Claims C6 and C10: pruning invisibility

`fromValue` skips null and unknown children of containers before converting
them; removing such children from the input therefore cannot change the
output.  `pruneVal f` removes every container child selected by `f`. -/

theorem sizeOf_lt_of_mem_vals {v : AttrValue} {xs : List AttrValue} (h : v ∈ xs) :
    sizeOf v < sizeOf xs := by
  induction xs with
  | nil => cases h
  | cons x rest ih =>
    rcases List.mem_cons.mp h with rfl | h2
    · simp
      omega
    · have := ih h2
      simp
      omega

theorem sizeOf_lt_of_mem_entries {k : String} {v : AttrValue}
    {kvs : List (String × AttrValue)} (h : (k, v) ∈ kvs) : sizeOf v < sizeOf kvs := by
  induction kvs with
  | nil => cases h
  | cons kv rest ih =>
    rcases List.mem_cons.mp h with heq | h2
    · obtain ⟨k2, v2⟩ := kv
      obtain ⟨rfl, rfl⟩ := Prod.mk.injEq .. ▸ heq
      simp
      omega
    · have := ih h2
      simp
      omega

/-- Structural induction over `AttrValue` with membership induction
hypotheses for container children and the dynamic payload. -/
theorem AttrValue.inductionOn (motive : AttrValue → Prop)
    (hbool : ∀ s, motive (.boolV s))
    (hfloat32 : ∀ s, motive (.float32V s))
    (hfloat64 : ∀ s, motive (.float64V s))
    (hint32 : ∀ s, motive (.int32V s))
    (hint64 : ∀ s, motive (.int64V s))
    (hnumber : ∀ s, motive (.numberV s))
    (hstring : ∀ s, motive (.stringV s))
    (hdynNull : motive (.dynamicV .null))
    (hdynUnknown : motive (.dynamicV .unknown))
    (hdyn : ∀ v, motive v → motive (.dynamicV (.known v)))
    (hlistNK : ∀ e, motive (.listV e .null) ∧ motive (.listV e .unknown))
    (hlist : ∀ e xs, (∀ v ∈ xs, motive v) → motive (.listV e (.known xs)))
    (hmapNK : ∀ e, motive (.mapV e .null) ∧ motive (.mapV e .unknown))
    (hmap : ∀ e kvs, (∀ k v, (k, v) ∈ kvs → motive v) → motive (.mapV e (.known kvs)))
    (hsetNK : ∀ e, motive (.setV e .null) ∧ motive (.setV e .unknown))
    (hset : ∀ e xs, (∀ v ∈ xs, motive v) → motive (.setV e (.known xs)))
    (htupleNK : ∀ ts, motive (.tupleV ts .null) ∧ motive (.tupleV ts .unknown))
    (htuple : ∀ ts xs, (∀ v ∈ xs, motive v) → motive (.tupleV ts (.known xs)))
    (hobjNK : ∀ ats, motive (.objectV ats .null) ∧ motive (.objectV ats .unknown))
    (hobj : ∀ ats kvs, (∀ k v, (k, v) ∈ kvs → motive v) → motive (.objectV ats (.known kvs))) :
    ∀ v, motive v
  | .boolV s => hbool s
  | .float32V s => hfloat32 s
  | .float64V s => hfloat64 s
  | .int32V s => hint32 s
  | .int64V s => hint64 s
  | .numberV s => hnumber s
  | .stringV s => hstring s
  | .dynamicV .null => hdynNull
  | .dynamicV .unknown => hdynUnknown
  | .dynamicV (.known v) =>
    hdyn v (AttrValue.inductionOn motive hbool hfloat32 hfloat64 hint32 hint64 hnumber
      hstring hdynNull hdynUnknown hdyn hlistNK hlist hmapNK hmap hsetNK hset htupleNK
      htuple hobjNK hobj v)
  | .listV e .null => (hlistNK e).1
  | .listV e .unknown => (hlistNK e).2
  | .listV e (.known xs) =>
    hlist e xs (fun v hv =>
      have : sizeOf v < sizeOf xs := sizeOf_lt_of_mem_vals hv
      AttrValue.inductionOn motive hbool hfloat32 hfloat64 hint32 hint64 hnumber hstring
        hdynNull hdynUnknown hdyn hlistNK hlist hmapNK hmap hsetNK hset htupleNK htuple
        hobjNK hobj v)
  | .mapV e .null => (hmapNK e).1
  | .mapV e .unknown => (hmapNK e).2
  | .mapV e (.known kvs) =>
    hmap e kvs (fun k v hv =>
      have : sizeOf v < sizeOf kvs := sizeOf_lt_of_mem_entries hv
      AttrValue.inductionOn motive hbool hfloat32 hfloat64 hint32 hint64 hnumber hstring
        hdynNull hdynUnknown hdyn hlistNK hlist hmapNK hmap hsetNK hset htupleNK htuple
        hobjNK hobj v)
  | .setV e .null => (hsetNK e).1
  | .setV e .unknown => (hsetNK e).2
  | .setV e (.known xs) =>
    hset e xs (fun v hv =>
      have : sizeOf v < sizeOf xs := sizeOf_lt_of_mem_vals hv
      AttrValue.inductionOn motive hbool hfloat32 hfloat64 hint32 hint64 hnumber hstring
        hdynNull hdynUnknown hdyn hlistNK hlist hmapNK hmap hsetNK hset htupleNK htuple
        hobjNK hobj v)
  | .tupleV ts .null => (htupleNK ts).1
  | .tupleV ts .unknown => (htupleNK ts).2
  | .tupleV ts (.known xs) =>
    htuple ts xs (fun v hv =>
      have : sizeOf v < sizeOf xs := sizeOf_lt_of_mem_vals hv
      AttrValue.inductionOn motive hbool hfloat32 hfloat64 hint32 hint64 hnumber hstring
        hdynNull hdynUnknown hdyn hlistNK hlist hmapNK hmap hsetNK hset htupleNK htuple
        hobjNK hobj v)
  | .objectV ats .null => (hobjNK ats).1
  | .objectV ats .unknown => (hobjNK ats).2
  | .objectV ats (.known kvs) =>
    hobj ats kvs (fun k v hv =>
      have : sizeOf v < sizeOf kvs := sizeOf_lt_of_mem_entries hv
      AttrValue.inductionOn motive hbool hfloat32 hfloat64 hint32 hint64 hnumber hstring
        hdynNull hdynUnknown hdyn hlistNK hlist hmapNK hmap hsetNK hset htupleNK htuple
        hobjNK hobj v)
termination_by v => sizeOf v
decreasing_by all_goals (simp_wf; omega)

/-- Pruning container children never changes a value's own null state. -/
theorem pruneVal_isNull (f : AttrValue → Bool) (v : AttrValue) :
    (pruneVal f v).isNull = v.isNull := by
  cases v <;> rename_i s <;> cases s <;>
    simp [pruneVal, AttrValue.isNull, VState.isNull]

/-- Pruning container children never changes a value's own unknown state. -/
theorem pruneVal_isUnknown (f : AttrValue → Bool) (v : AttrValue) :
    (pruneVal f v).isUnknown = v.isUnknown := by
  cases v <;> rename_i s <;> cases s <;>
    simp [pruneVal, AttrValue.isUnknown, VState.isUnknown]

theorem fromList_prune (f : AttrValue → Bool)
    (hf : ∀ u, f u = true → (u.isNull || u.isUnknown) = true)
    (xs : List AttrValue) (pre : Bool)
    (ih : ∀ x ∈ xs, ∀ p, fromValue (pruneVal f x) p = fromValue x p) :
    fromList (pruneList f xs) pre = fromList xs pre := by
  induction xs with
  | nil => simp [pruneList]
  | cons v rest ihl =>
    have ihv := ih v (List.mem_cons_self v rest)
    have ihr : ∀ x ∈ rest, ∀ p, fromValue (pruneVal f x) p = fromValue x p :=
      fun x hx => ih x (List.mem_cons_of_mem _ hx)
    by_cases hfv : f v = true
    · have hnv := hf v hfv
      simp only [pruneList, hfv, if_true]
      rw [show fromList (v :: rest) pre = fromList rest pre by simp [fromList, hnv]]
      exact ihl ihr
    · rw [show pruneList f (v :: rest) = pruneVal f v :: pruneList f rest by
        simp [pruneList, hfv]]
      by_cases hskip : (v.isNull || v.isUnknown) = true
      · have hskip' : ((pruneVal f v).isNull || (pruneVal f v).isUnknown) = true := by
          rw [pruneVal_isNull, pruneVal_isUnknown]; exact hskip
        rw [show fromList (pruneVal f v :: pruneList f rest) pre =
            fromList (pruneList f rest) pre by simp [fromList, hskip']]
        rw [show fromList (v :: rest) pre = fromList rest pre by simp [fromList, hskip]]
        exact ihl ihr
      · have hskip' : ¬((pruneVal f v).isNull || (pruneVal f v).isUnknown) = true := by
          rw [pruneVal_isNull, pruneVal_isUnknown]; exact hskip
        simp only [fromList, hskip, hskip', if_neg]
        rw [ihv pre, ihl ihr]

theorem fromEntries_prune (f : AttrValue → Bool)
    (hf : ∀ u, f u = true → (u.isNull || u.isUnknown) = true)
    (kvs : List (String × AttrValue)) (pre : Bool)
    (ih : ∀ k v, (k, v) ∈ kvs → ∀ p, fromValue (pruneVal f v) p = fromValue v p) :
    fromEntries (pruneEntries f kvs) pre = fromEntries kvs pre := by
  induction kvs with
  | nil => simp [pruneEntries]
  | cons kv rest ihl =>
    obtain ⟨k, v⟩ := kv
    have ihv := ih k v (List.mem_cons_self _ rest)
    have ihr : ∀ k2 v2, (k2, v2) ∈ rest → ∀ p,
        fromValue (pruneVal f v2) p = fromValue v2 p :=
      fun k2 v2 hx => ih k2 v2 (List.mem_cons_of_mem _ hx)
    by_cases hfv : f v = true
    · have hnv := hf v hfv
      simp only [pruneEntries, hfv, if_true]
      rw [show fromEntries ((k, v) :: rest) pre = fromEntries rest pre by
        simp [fromEntries, hnv]]
      exact ihl ihr
    · rw [show pruneEntries f ((k, v) :: rest) = (k, pruneVal f v) :: pruneEntries f rest by
        simp [pruneEntries, hfv]]
      by_cases hskip : (v.isNull || v.isUnknown) = true
      · have hskip' : ((pruneVal f v).isNull || (pruneVal f v).isUnknown) = true := by
          rw [pruneVal_isNull, pruneVal_isUnknown]; exact hskip
        rw [show fromEntries ((k, pruneVal f v) :: pruneEntries f rest) pre =
            fromEntries (pruneEntries f rest) pre by simp [fromEntries, hskip']]
        rw [show fromEntries ((k, v) :: rest) pre = fromEntries rest pre by
          simp [fromEntries, hskip]]
        exact ihl ihr
      · have hskip' : ¬((pruneVal f v).isNull || (pruneVal f v).isUnknown) = true := by
          rw [pruneVal_isNull, pruneVal_isUnknown]; exact hskip
        simp only [fromEntries, hskip, hskip', if_neg]
        rw [ihv (pre || ignoreCaseNames.contains k), ihl ihr]

/-- Removing null-or-unknown container children is invisible to `fromValue`. -/
theorem fromValue_prune (f : AttrValue → Bool)
    (hf : ∀ u, f u = true → (u.isNull || u.isUnknown) = true) :
    ∀ v pre, fromValue (pruneVal f v) pre = fromValue v pre := by
  intro v
  induction v using AttrValue.inductionOn with
  | hbool s => intro pre; simp [pruneVal]
  | hfloat32 s => intro pre; simp [pruneVal]
  | hfloat64 s => intro pre; simp [pruneVal]
  | hint32 s => intro pre; simp [pruneVal]
  | hint64 s => intro pre; simp [pruneVal]
  | hnumber s => intro pre; simp [pruneVal]
  | hstring s => intro pre; simp [pruneVal]
  | hdynNull => intro pre; simp [pruneVal]
  | hdynUnknown => intro pre; simp [pruneVal]
  | hdyn u ihu =>
    intro pre
    rw [show pruneVal f (.dynamicV (.known u)) = .dynamicV (.known (pruneVal f u)) by
      simp [pruneVal]]
    rw [show fromValue (AttrValue.dynamicV (.known (pruneVal f u))) pre =
      fromValue (pruneVal f u) pre by simp [fromValue]]
    rw [show fromValue (AttrValue.dynamicV (.known u)) pre = fromValue u pre by
      simp [fromValue]]
    exact ihu pre
  | hlistNK e => exact ⟨fun pre => by simp [pruneVal], fun pre => by simp [pruneVal]⟩
  | hlist e xs ihxs =>
    intro pre
    rw [show pruneVal f (.listV e (.known xs)) = .listV e (.known (pruneList f xs)) by
      simp [pruneVal]]
    simp only [fromValue]
    rw [fromList_prune f hf xs pre ihxs]
  | hmapNK e => exact ⟨fun pre => by simp [pruneVal], fun pre => by simp [pruneVal]⟩
  | hmap e kvs ihkvs =>
    intro pre
    rw [show pruneVal f (.mapV e (.known kvs)) = .mapV e (.known (pruneEntries f kvs)) by
      simp [pruneVal]]
    simp only [fromValue]
    rw [fromEntries_prune f hf kvs pre ihkvs]
  | hsetNK e => exact ⟨fun pre => by simp [pruneVal], fun pre => by simp [pruneVal]⟩
  | hset e xs ihxs =>
    intro pre
    rw [show pruneVal f (.setV e (.known xs)) = .setV e (.known (pruneList f xs)) by
      simp [pruneVal]]
    simp only [fromValue]
    rw [fromList_prune f hf xs pre ihxs]
  | htupleNK ts => exact ⟨fun pre => by simp [pruneVal], fun pre => by simp [pruneVal]⟩
  | htuple ts xs ihxs =>
    intro pre
    rw [show pruneVal f (.tupleV ts (.known xs)) = .tupleV ts (.known (pruneList f xs)) by
      simp [pruneVal]]
    simp only [fromValue]
    rw [fromList_prune f hf xs pre ihxs]
  | hobjNK ats => exact ⟨fun pre => by simp [pruneVal], fun pre => by simp [pruneVal]⟩
  | hobj ats kvs ihkvs =>
    intro pre
    rw [show pruneVal f (.objectV ats (.known kvs)) =
        .objectV ats (.known (pruneEntries f kvs)) by simp [pruneVal]]
    simp only [fromValue]
    rw [fromEntries_prune f hf kvs pre ihkvs]

/-- C6: the native output of `fromValue` contains no component derived from an
Unknown value: removing every unknown map entry, object attribute and
list/set/tuple element from the input leaves the converted native result
unchanged — unknown children are skipped and never contribute anything. -/
theorem c6_unknown_never_in_native_output (v : AttrValue) (pre : Bool) :
    fromValue (pruneVal AttrValue.isUnknown v) pre = fromValue v pre :=
  fromValue_prune AttrValue.isUnknown (fun u hu => by simp [hu]) v pre

/-- C10: `fromValue` also omits Null children entirely: removing every null
map entry, object attribute and list/set/tuple element from the input leaves
the converted native result unchanged — a null child produces no key and no
native null. -/
theorem c10_null_omitted_from_native_output (v : AttrValue) (pre : Bool) :
    fromValue (pruneVal AttrValue.isNull v) pre = fromValue v pre :=
  fromValue_prune AttrValue.isNull (fun u hu => by simp [hu]) v pre

/-! ## Claim C8 -/

def isObjectType : AttrType → Bool
  | .objectT _ => true
  | _ => false

theorem typedNull_isNull (t : AttrType) : (typedNull t).isNull = true := by
  cases t <;> rfl

theorem typedNull_isUnknown (t : AttrType) : (typedNull t).isUnknown = false := by
  cases t <;> rfl

theorem typedNull_typeOf (t : AttrType) : (typedNull t).typeOf = t := by
  cases t <;> rfl

/-- A successful `newNullValue` yields the typed null of the value's type,
and normalizing that null again is the identity. -/
theorem newNullValue_ok {v nv : AttrValue} (h : newNullValue v = .ok nv) :
    nv = typedNull v.typeOf ∧ newNullValue nv = .ok nv := by
  unfold newNullValue at h
  cases ht : v.typeOf <;> rw [ht] at h <;> simp at h <;>
    (subst h; exact ⟨rfl, rfl⟩)

/-- A successful `fillObjectNull` always returns a known object value. -/
theorem fillObjectNull_ok_shape {v w : AttrValue} (h : fillObjectNull v = .ok w) :
    (∃ ats l, w = .objectV ats (.known l)) ∧ w.isNull = false ∧ w.isUnknown = false := by
  cases v with
  | objectV ats s =>
    cases s with
    | known kvs =>
      simp only [fillObjectNull] at h
      cases hfa : fillAttrs kvs with
      | error e => rw [hfa] at h; simp at h
      | ok filled =>
        rw [hfa] at h
        obtain ⟨hw, _⟩ := mkObjectValue_ok h
        subst hw
        exact ⟨⟨ats, filled, rfl⟩, rfl, rfl⟩
    | null =>
      simp only [fillObjectNull] at h
      obtain ⟨hw, _⟩ := mkObjectValue_ok h
      subst hw
      exact ⟨⟨ats, [], rfl⟩, rfl, rfl⟩
    | unknown =>
      simp only [fillObjectNull] at h
      obtain ⟨hw, _⟩ := mkObjectValue_ok h
      subst hw
      exact ⟨⟨ats, [], rfl⟩, rfl, rfl⟩
  | boolV s => simp [fillObjectNull] at h
  | dynamicV s => simp [fillObjectNull] at h
  | float32V s => simp [fillObjectNull] at h
  | float64V s => simp [fillObjectNull] at h
  | int32V s => simp [fillObjectNull] at h
  | int64V s => simp [fillObjectNull] at h
  | numberV s => simp [fillObjectNull] at h
  | stringV s => simp [fillObjectNull] at h
  | listV e s => simp [fillObjectNull] at h
  | mapV e s => simp [fillObjectNull] at h
  | setV e s => simp [fillObjectNull] at h
  | tupleV ts s => simp [fillObjectNull] at h

theorem fillAttrEntry_idem {av w : AttrValue}
    (hrec : ∀ w2, fillObjectNull av = .ok w2 → fillObjectNull w2 = .ok w2)
    (h : fillAttrEntry av = .ok w) : fillAttrEntry w = .ok w := by
  by_cases hnu : (av.isUnknown || av.isNull) = true
  · have hav : fillAttrEntry av = newNullValue av := by
      cases av <;> simp [fillAttrEntry, hnu]
    rw [hav] at h
    obtain ⟨hnv, hnn2⟩ := newNullValue_ok h
    have h1 : (w.isUnknown || w.isNull) = true := by
      rw [hnv, typedNull_isUnknown, typedNull_isNull]
      rfl
    have hw : fillAttrEntry w = newNullValue w := by
      cases w <;> simp [fillAttrEntry, h1]
    rw [hw]
    exact hnn2
  · cases av with
    | objectV ats2 s2 =>
      have hav : fillAttrEntry (.objectV ats2 s2) = fillObjectNull (.objectV ats2 s2) := by
        simp [fillAttrEntry, hnu]
      rw [hav] at h
      have h2 := hrec w h
      obtain ⟨⟨ats3, l3, hwshape⟩, hn, hu⟩ := fillObjectNull_ok_shape h
      have hnu2 : ¬(w.isUnknown || w.isNull) = true := by
        rw [hn, hu]
        simp
      have hw : fillAttrEntry w = fillObjectNull w := by
        subst hwshape
        simp [fillAttrEntry, hnu2]
      rw [hw]
      exact h2
    | boolV s =>
      simp [fillAttrEntry, hnu] at h
      subst h
      simp [fillAttrEntry, hnu]
    | dynamicV s =>
      simp [fillAttrEntry, hnu] at h
      subst h
      simp [fillAttrEntry, hnu]
    | float32V s =>
      simp [fillAttrEntry, hnu] at h
      subst h
      simp [fillAttrEntry, hnu]
    | float64V s =>
      simp [fillAttrEntry, hnu] at h
      subst h
      simp [fillAttrEntry, hnu]
    | int32V s =>
      simp [fillAttrEntry, hnu] at h
      subst h
      simp [fillAttrEntry, hnu]
    | int64V s =>
      simp [fillAttrEntry, hnu] at h
      subst h
      simp [fillAttrEntry, hnu]
    | numberV s =>
      simp [fillAttrEntry, hnu] at h
      subst h
      simp [fillAttrEntry, hnu]
    | stringV s =>
      simp [fillAttrEntry, hnu] at h
      subst h
      simp [fillAttrEntry, hnu]
    | listV e s =>
      simp [fillAttrEntry, hnu] at h
      subst h
      simp [fillAttrEntry, hnu]
    | mapV e s =>
      simp [fillAttrEntry, hnu] at h
      subst h
      simp [fillAttrEntry, hnu]
    | setV e s =>
      simp [fillAttrEntry, hnu] at h
      subst h
      simp [fillAttrEntry, hnu]
    | tupleV ts s =>
      simp [fillAttrEntry, hnu] at h
      subst h
      simp [fillAttrEntry, hnu]

theorem fillAttrs_idem :
    ∀ (kvs l : List (String × AttrValue)),
      (∀ k v, (k, v) ∈ kvs → ∀ w, fillObjectNull v = .ok w → fillObjectNull w = .ok w) →
      fillAttrs kvs = .ok l → fillAttrs l = .ok l := by
  intro kvs
  induction kvs with
  | nil =>
    intro l ih h
    simp [fillAttrs] at h
    subst h
    simp [fillAttrs]
  | cons kv rest ihl =>
    intro l ih h
    obtain ⟨name, av⟩ := kv
    simp only [fillAttrs] at h
    cases he : fillAttrEntry av with
    | error e => rw [he] at h; simp at h
    | ok nv =>
      rw [he] at h
      cases hrest : fillAttrs rest with
      | error e => rw [hrest] at h; simp at h
      | ok tail =>
        rw [hrest] at h
        simp at h
        have hnv2 : fillAttrEntry nv = .ok nv :=
          fillAttrEntry_idem (fun w2 => ih name av (List.mem_cons_self _ _) w2) he
        have htail2 : fillAttrs tail = .ok tail :=
          ihl tail (fun k v hm => ih k v (List.mem_cons_of_mem _ hm)) hrest
        rw [← h]
        simp only [fillAttrs, hnv2, htail2]

/-- `fillObjectNull` is idempotent on every value on which it succeeds. -/
theorem fillObjectNull_idem :
    ∀ v w, fillObjectNull v = .ok w → fillObjectNull w = .ok w := by
  intro v
  induction v using AttrValue.inductionOn with
  | hbool s => intro w h; simp [fillObjectNull] at h
  | hfloat32 s => intro w h; simp [fillObjectNull] at h
  | hfloat64 s => intro w h; simp [fillObjectNull] at h
  | hint32 s => intro w h; simp [fillObjectNull] at h
  | hint64 s => intro w h; simp [fillObjectNull] at h
  | hnumber s => intro w h; simp [fillObjectNull] at h
  | hstring s => intro w h; simp [fillObjectNull] at h
  | hdynNull => intro w h; simp [fillObjectNull] at h
  | hdynUnknown => intro w h; simp [fillObjectNull] at h
  | hdyn u ihu => intro w h; simp [fillObjectNull] at h
  | hlistNK e =>
    exact ⟨fun w h => by simp [fillObjectNull] at h, fun w h => by simp [fillObjectNull] at h⟩
  | hlist e xs ihxs => intro w h; simp [fillObjectNull] at h
  | hmapNK e =>
    exact ⟨fun w h => by simp [fillObjectNull] at h, fun w h => by simp [fillObjectNull] at h⟩
  | hmap e kvs ihkvs => intro w h; simp [fillObjectNull] at h
  | hsetNK e =>
    exact ⟨fun w h => by simp [fillObjectNull] at h, fun w h => by simp [fillObjectNull] at h⟩
  | hset e xs ihxs => intro w h; simp [fillObjectNull] at h
  | htupleNK ts =>
    exact ⟨fun w h => by simp [fillObjectNull] at h, fun w h => by simp [fillObjectNull] at h⟩
  | htuple ts xs ihxs => intro w h; simp [fillObjectNull] at h
  | hobjNK ats =>
    constructor
    · intro w h
      simp only [fillObjectNull] at h
      obtain ⟨hw, _⟩ := mkObjectValue_ok h
      rw [hw]
      simp only [fillObjectNull, fillAttrs]
      rw [← hw]
      exact h
    · intro w h
      simp only [fillObjectNull] at h
      obtain ⟨hw, _⟩ := mkObjectValue_ok h
      rw [hw]
      simp only [fillObjectNull, fillAttrs]
      rw [← hw]
      exact h
  | hobj ats kvs ihkvs =>
    intro w h
    simp only [fillObjectNull] at h
    cases hfa : fillAttrs kvs with
    | error e => rw [hfa] at h; simp at h
    | ok filled =>
      rw [hfa] at h
      obtain ⟨hw, _⟩ := mkObjectValue_ok h
      have hfi : fillAttrs filled = .ok filled :=
        fillAttrs_idem kvs filled (fun k v hm => ihkvs k v hm) hfa
      rw [hw]
      simp only [fillObjectNull, hfi]
      rw [← hw]
      exact h

/-- C8 counterexample: `FillMissingValues` succeeds on a model whose one
object-typed field is unknown, turning it into a null object; applying the
pass a second time fails, because `fillObjectNull` rebuilds the null object
from its empty attribute map and `types.ObjectValue` rejects the missing
declared attribute.  So applying the pass twice does not yield the same tree
as applying it once — the second application yields no tree at all. -/
theorem c8_counterexample :
    FillMissingValues [("f", .objectV [("a", .boolT)] .unknown)] =
      .ok [("f", .objectV [("a", .boolT)] .null)] ∧
    (FillMissingValues [("f", .objectV [("a", .boolT)] .null)]).toOption = none := by
  constructor
  · simp [FillMissingValues, newNullValue, AttrValue.typeOf, typedNull, AttrValue.isUnknown,
      VState.isUnknown]
  · simp [FillMissingValues, AttrValue.typeOf, AttrValue.isUnknown, VState.isUnknown,
      fillObjectNull, mkObjectValue, objectFieldsOk, lookupS, Except.toOption]

/-- C8 (amended): the null-completion pass is idempotent with one exception
forced by the counterexample: `fillObjectNull` is idempotent on every value on
which it succeeds, and `FillMissingValues` is idempotent on every model on
which it succeeds that has no unknown object-typed field (an unknown
object-typed field becomes a null object on which the second application
fails). -/
theorem c8_amended_null_completion_idempotent :
    (∀ v w, fillObjectNull v = .ok w → fillObjectNull w = .ok w) ∧
    (∀ m m', (∀ p ∈ m, (p.2.isUnknown && isObjectType p.2.typeOf) = false) →
      FillMissingValues m = .ok m' → FillMissingValues m' = .ok m') := by
  constructor
  · exact fillObjectNull_idem
  · intro m
    induction m with
    | nil =>
      intro m' hc h
      simp [FillMissingValues] at h
      subst h
      simp [FillMissingValues]
    | cons p rest ihm =>
      intro m' hc h
      obtain ⟨name, av⟩ := p
      have hcr : ∀ p ∈ rest, (p.2.isUnknown && isObjectType p.2.typeOf) = false :=
        fun p hm => hc p (List.mem_cons_of_mem _ hm)
      have hch := hc (name, av) (List.mem_cons_self _ _)
      simp only [FillMissingValues] at h
      by_cases hu : av.isUnknown = true
      · rw [if_pos hu] at h
        cases hnn : newNullValue av with
        | error e => rw [hnn] at h; simp at h
        | ok nv =>
          rw [hnn] at h
          cases hrest : FillMissingValues rest with
          | error e => rw [hrest] at h; simp at h
          | ok tail =>
            rw [hrest] at h
            simp at h
            obtain ⟨hnv, _⟩ := newNullValue_ok hnn
            have hobjF : isObjectType av.typeOf = false := by
              rw [hu] at hch
              simpa using hch
            have htail2 : FillMissingValues tail = .ok tail := ihm tail hcr hrest
            rw [← h]
            simp only [FillMissingValues]
            have hnvU : nv.isUnknown = false := by rw [hnv]; exact typedNull_isUnknown _
            rw [if_neg (by rw [hnvU]; simp)]
            have hnvT : nv.typeOf = av.typeOf := by rw [hnv]; exact typedNull_typeOf _
            cases ht : av.typeOf <;> rw [ht] at hobjF <;>
              first
              | (rw [hnvT, ht]
                 simp [htail2]
                 done)
              | (simp [isObjectType] at hobjF)
      · rw [if_neg hu] at h
        cases ht : av.typeOf with
        | objectT ats =>
          rw [ht] at h
          cases hfo : fillObjectNull av with
          | error e => rw [hfo] at h; simp at h
          | ok w2 =>
            rw [hfo] at h
            cases hrest : FillMissingValues rest with
            | error e => rw [hrest] at h; simp at h
            | ok tail =>
              rw [hrest] at h
              simp at h
              have hw2 : fillObjectNull w2 = .ok w2 := fillObjectNull_idem av w2 hfo
              obtain ⟨⟨ats3, l3, hshape⟩, hn3, hu3⟩ := fillObjectNull_ok_shape hfo
              have htail2 : FillMissingValues tail = .ok tail := ihm tail hcr hrest
              rw [← h]
              simp only [FillMissingValues]
              rw [if_neg (by rw [hu3]; simp)]
              have : w2.typeOf = .objectT ats3 := by rw [hshape]; rfl
              rw [this]
              simp only [hw2, htail2]
        | boolT =>
          rw [ht] at h
          cases hrest : FillMissingValues rest with
          | error e => rw [hrest] at h; simp at h
          | ok tail =>
            rw [hrest] at h
            simp at h
            have htail2 : FillMissingValues tail = .ok tail := ihm tail hcr hrest
            rw [← h]
            simp only [FillMissingValues]
            rw [if_neg hu]
            rw [ht]
            simp only [htail2]
        | dynamicT =>
          rw [ht] at h
          cases hrest : FillMissingValues rest with
          | error e => rw [hrest] at h; simp at h
          | ok tail =>
            rw [hrest] at h
            simp at h
            have htail2 : FillMissingValues tail = .ok tail := ihm tail hcr hrest
            rw [← h]
            simp only [FillMissingValues]
            rw [if_neg hu]
            rw [ht]
            simp only [htail2]
        | float32T =>
          rw [ht] at h
          cases hrest : FillMissingValues rest with
          | error e => rw [hrest] at h; simp at h
          | ok tail =>
            rw [hrest] at h
            simp at h
            have htail2 : FillMissingValues tail = .ok tail := ihm tail hcr hrest
            rw [← h]
            simp only [FillMissingValues]
            rw [if_neg hu]
            rw [ht]
            simp only [htail2]
        | float64T =>
          rw [ht] at h
          cases hrest : FillMissingValues rest with
          | error e => rw [hrest] at h; simp at h
          | ok tail =>
            rw [hrest] at h
            simp at h
            have htail2 : FillMissingValues tail = .ok tail := ihm tail hcr hrest
            rw [← h]
            simp only [FillMissingValues]
            rw [if_neg hu]
            rw [ht]
            simp only [htail2]
        | int32T =>
          rw [ht] at h
          cases hrest : FillMissingValues rest with
          | error e => rw [hrest] at h; simp at h
          | ok tail =>
            rw [hrest] at h
            simp at h
            have htail2 : FillMissingValues tail = .ok tail := ihm tail hcr hrest
            rw [← h]
            simp only [FillMissingValues]
            rw [if_neg hu]
            rw [ht]
            simp only [htail2]
        | int64T =>
          rw [ht] at h
          cases hrest : FillMissingValues rest with
          | error e => rw [hrest] at h; simp at h
          | ok tail =>
            rw [hrest] at h
            simp at h
            have htail2 : FillMissingValues tail = .ok tail := ihm tail hcr hrest
            rw [← h]
            simp only [FillMissingValues]
            rw [if_neg hu]
            rw [ht]
            simp only [htail2]
        | numberT =>
          rw [ht] at h
          cases hrest : FillMissingValues rest with
          | error e => rw [hrest] at h; simp at h
          | ok tail =>
            rw [hrest] at h
            simp at h
            have htail2 : FillMissingValues tail = .ok tail := ihm tail hcr hrest
            rw [← h]
            simp only [FillMissingValues]
            rw [if_neg hu]
            rw [ht]
            simp only [htail2]
        | stringT =>
          rw [ht] at h
          cases hrest : FillMissingValues rest with
          | error e => rw [hrest] at h; simp at h
          | ok tail =>
            rw [hrest] at h
            simp at h
            have htail2 : FillMissingValues tail = .ok tail := ihm tail hcr hrest
            rw [← h]
            simp only [FillMissingValues]
            rw [if_neg hu]
            rw [ht]
            simp only [htail2]
        | listT e =>
          rw [ht] at h
          cases hrest : FillMissingValues rest with
          | error e2 => rw [hrest] at h; simp at h
          | ok tail =>
            rw [hrest] at h
            simp at h
            have htail2 : FillMissingValues tail = .ok tail := ihm tail hcr hrest
            rw [← h]
            simp only [FillMissingValues]
            rw [if_neg hu]
            rw [ht]
            simp only [htail2]
        | mapT e =>
          rw [ht] at h
          cases hrest : FillMissingValues rest with
          | error e2 => rw [hrest] at h; simp at h
          | ok tail =>
            rw [hrest] at h
            simp at h
            have htail2 : FillMissingValues tail = .ok tail := ihm tail hcr hrest
            rw [← h]
            simp only [FillMissingValues]
            rw [if_neg hu]
            rw [ht]
            simp only [htail2]
        | setT e =>
          rw [ht] at h
          cases hrest : FillMissingValues rest with
          | error e2 => rw [hrest] at h; simp at h
          | ok tail =>
            rw [hrest] at h
            simp at h
            have htail2 : FillMissingValues tail = .ok tail := ihm tail hcr hrest
            rw [← h]
            simp only [FillMissingValues]
            rw [if_neg hu]
            rw [ht]
            simp only [htail2]
        | tupleT ts =>
          rw [ht] at h
          cases hrest : FillMissingValues rest with
          | error e2 => rw [hrest] at h; simp at h
          | ok tail =>
            rw [hrest] at h
            simp at h
            have htail2 : FillMissingValues tail = .ok tail := ihm tail hcr hrest
            rw [← h]
            simp only [FillMissingValues]
            rw [if_neg hu]
            rw [ht]
            simp only [htail2]

/-- Witness for C8 (amended): an object whose one attribute is an unknown
bool is filled to an object with a null bool, and filling that result again
returns it unchanged; likewise a model with an unknown string field (not
object-typed) is completed idempotently. -/
theorem c8_amended_null_completion_idempotent_witness :
    fillObjectNull (.objectV [("a", .boolT)] (.known [("a", .boolV .null)])) =
      .ok (.objectV [("a", .boolT)] (.known [("a", .boolV .null)])) ∧
    FillMissingValues [("x", .stringV .null)] = .ok [("x", .stringV .null)] := by
  constructor
  · exact c8_amended_null_completion_idempotent.1
      (.objectV [("a", .boolT)] (.known [("a", .boolV .unknown)]))
      (.objectV [("a", .boolT)] (.known [("a", .boolV .null)]))
      (by simp [fillObjectNull, fillAttrs, fillAttrEntry, newNullValue, typedNull,
        AttrValue.typeOf, AttrValue.isUnknown, AttrValue.isNull, VState.isUnknown,
        VState.isNull, mkObjectValue, objectFieldsOk, lookupS, teq])
  · exact c8_amended_null_completion_idempotent.2 [("x", .stringV .unknown)]
      [("x", .stringV .null)]
      (by intro p hm; simp at hm; simp [hm, AttrValue.isUnknown, VState.isUnknown,
        AttrValue.typeOf, isObjectType])
      (by simp [FillMissingValues, newNullValue, typedNull, AttrValue.typeOf,
        AttrValue.isUnknown, VState.isUnknown])

end EdaProvider
